import Mathlib

/-
Verification of the MobBob control program
(src/ArduinoCode/MobBob-Control-Bluetooth/MobBob-Control-Bluetooth.ino).

The development shallowly embeds the two engines of the sketch:

* the byte-oriented command parser (loop_Parser, lines 776-1347), and
* the keyframe animation sequencer (loop_Animation and its helpers,
  lines 1350-1745).

Modelling conventions, stated once here:

* C `int` and `long` values are modelled as mathematical `Int`; the sketch
  never relies on wrap-around for the quantities the claims are about.
* The five textually identical per-parameter parser states
  (PARSER_PARAM1 .. PARSER_PARAM5) are embedded as one indexed mode
  `PMode.param k` with `k : Fin 5`; `PARSER_PARAM5` differs from the others
  only in that a separator is not accepted (in the source it falls into the
  abort branch), which the embedding reproduces for `k = 4`.
* Animations are C arrays referenced by pointer.  They are embedded as a
  name type `AnimRef` (pointer identity = name equality) together with a
  store holding the only mutable animation data, the single data frames of
  the two `SetServos` scratch animations.
* `millis()` is passed to the tick function as an explicit argument.
* The per-tick interpolation is carried out by the sketch in IEEE `float`
  and the result is truncated back to `int` on assignment.  It is embedded
  as the exact rational value truncated toward zero
  (`lerpJoint`, computed over `Int` with `Int.tdiv`).  A zero frame
  duration makes the sketch divide zero by zero (`frameTimeFraction`
  becomes NaN); the embedding records that division by zero as the
  explicit event `Ev.divByZero` and uses the harmless convention value
  `start` for the positions written on such a tick (the sketch writes
  NaN casts there; the next tick's keyframe snap overwrites them).
* Serial output lines (`println` of completion notifications) and
  `writeMicroseconds` calls (UpdateServos) are the observable events of a
  tick, collected in a `List Ev`.
-/

namespace MobBob

/-! ## Parser data (lines 677-725 of the sketch) -/

/-- Parser state constants PARSER_WAITING, PARSER_COMMAND and
PARSER_PARAM1 .. PARSER_PARAM5, the latter as one indexed mode.
PARSER_EXECUTE is transient within one loop_Parser call (the command is
executed and the state cleared before the next byte), so it does not
appear as a mode. -/
inductive PMode where
  | waiting
  | command
  | param (k : Fin 5)
deriving DecidableEq

/-- The parser scratch variables: currParserState, currCmd[0]/currCmd[1],
currCmdIndex, currParam1Val..currParam5Val (indexed), currParamIndex and
currParamNegative. -/
structure PState where
  mode : PMode
  cmd0 : Char
  cmd1 : Char
  cmdIndex : Nat
  pvals : Fin 5 → Int
  paramIndex : Nat
  neg : Bool

/-- A completed command as handed to the PARSER_EXECUTE block: the two
command characters and the five parameter values (parameters not present
in the input keep the value 0 they were reset to on the start char). -/
structure Dispatch where
  c0 : Char
  c1 : Char
  p1 : Int
  p2 : Int
  p3 : Int
  p4 : Int
  p5 : Int
deriving DecidableEq

/-- CMD_LENGTH (line 707). -/
def CMD_LENGTH : Nat := 2

/-- MAX_PARAM_LENGTH (line 725). -/
def MAX_PARAM_LENGTH : Nat := 6

/-- The sign application done on reaching a separator or the end char in a
parameter state: if currParamNegative, negate the current parameter. -/
def applySign (k : Fin 5) (s : PState) : PState :=
  if s.neg then { s with pvals := Function.update s.pvals k (-1 * s.pvals k) } else s

/-- The parsed items as read by the PARSER_EXECUTE block. -/
def mkDispatch (s : PState) : Dispatch :=
  ⟨s.cmd0, s.cmd1, s.pvals 0, s.pvals 1, s.pvals 2, s.pvals 3, s.pvals 4⟩

/-- The value of a digit character, `c - '0'` (lines 906-907). -/
def digitVal (c : Char) : Int := (c.toNat : Int) - ('0'.toNat : Int)

/-- One byte of loop_Parser (lines 776-1346): the state machine step.
Returns the new parser state and the dispatched command, if the byte
completed one (the PARSER_EXECUTE block runs in the same iteration and
unconditionally resets the state to PARSER_WAITING, line 1344). -/
def pstep (s : PState) (c : Char) : PState × Option Dispatch :=
  match s.mode with
  | .waiting =>
      -- lines 790-810: wait for START_CHAR, then reset the scratch state
      if c = '<' then
        ({ s with mode := .command, cmdIndex := 0, cmd0 := '-', cmd1 := '-',
                  pvals := fun _ => 0 }, none)
      else (s, none)
  | .command =>
      -- lines 813-858
      if c = ',' then
        if s.cmdIndex = CMD_LENGTH then
          ({ s with mode := .param 0, paramIndex := 0, neg := false }, none)
        else ({ s with mode := .waiting }, none)
      else if c = '>' then
        if s.cmdIndex = CMD_LENGTH then
          ({ s with mode := .waiting }, some (mkDispatch s))
        else ({ s with mode := .waiting }, none)
      else if CMD_LENGTH ≤ s.cmdIndex ∨ c < 'A' ∨ 'Z' < c then
        ({ s with mode := .waiting }, none)
      else
        ({ s with cmd0 := if s.cmdIndex = 0 then c else s.cmd0,
                  cmd1 := if s.cmdIndex = 1 then c else s.cmd1,
                  cmdIndex := s.cmdIndex + 1 }, none)
  | .param k =>
      -- lines 861-1108; for k = 4 (PARSER_PARAM5) a separator is not
      -- handled and falls into the abort branch, as in the source
      if c = ',' then
        if h : (k : Nat) < 4 then
          ({ applySign k s with mode := .param ⟨(k : Nat) + 1, by omega⟩,
                                paramIndex := 0, neg := false }, none)
        else
          ({ s with mode := .waiting }, none)
      else if c = '>' then
        ({ applySign k s with mode := .waiting }, some (mkDispatch (applySign k s)))
      else if s.paramIndex = 0 ∧ c = '-' then
        ({ s with neg := true, paramIndex := s.paramIndex + 1 }, none)
      else if MAX_PARAM_LENGTH ≤ s.paramIndex ∨ c < '0' ∨ '9' < c then
        ({ s with mode := .waiting }, none)
      else
        ({ s with pvals := Function.update s.pvals k (s.pvals k * 10 + digitVal c),
                  paramIndex := s.paramIndex + 1 }, none)

/-- Feeding a byte sequence one byte at a time, collecting dispatches. -/
def prun (s : PState) : List Char → PState × List Dispatch
  | [] => (s, [])
  | c :: cs =>
      let sd := pstep s c
      let rest := prun sd.1 cs
      (rest.1, sd.2.toList ++ rest.2)

/-- The parser state after setup_Parser: PARSER_WAITING with the global
initializers (currCmd = "--", parameter values zero). -/
def pInit : PState := ⟨.waiting, '-', '-', 0, fun _ => 0, 0, false⟩

/-! ## Decimal digits and formatting (for the round-trip claims) -/

/-- The ASCII character of a decimal digit. -/
def digitChar (d : Nat) : Char := Char.ofNat (48 + d)

/-- Worker for `natDigits`; the first argument is fuel (any fuel above the
number itself suffices, as dividing by ten strictly decreases it). -/
def natDigitsAux : Nat → Nat → List Char
  | 0, _ => []
  | fuel + 1, n =>
      if n < 10 then [digitChar n]
      else natDigitsAux fuel (n / 10) ++ [digitChar (n % 10)]

/-- Decimal digit characters of a natural number, most significant first. -/
def natDigits (n : Nat) : List Char := natDigitsAux (n + 1) n

/-- Decimal character rendering of an integer: an optional leading minus
sign followed by the digits of its absolute value. -/
def intChars (n : Int) : List Char :=
  if n < 0 then '-' :: natDigits n.natAbs else natDigits n.natAbs

/-- The integer denoted by a digit string (most significant first), by the
same shift-and-add the parser performs. -/
def digitsVal (ds : List Char) : Int :=
  ds.foldl (fun v c => v * 10 + digitVal c) 0

/-! ## The command grammar

`"<" CODE ("," PARAM){0,5} ">"`.  `ParamTok`/`CmdTok` describe one
parameter and one command; `chars` is its concrete spelling, `val` /
`dispatch` its meaning.  `wf` is the code-accepted grammar, in which a
leading minus sign counts toward the MAX_PARAM_LENGTH budget of 6
characters (the parser increments currParamIndex when it consumes the
sign), so a negative parameter carries at most 5 digits. -/

/-- A parameter token: an optional minus sign and its digit characters. -/
structure ParamTok where
  negS : Bool
  digits : List Char

/-- Spelling of a parameter token. -/
def ParamTok.chars (p : ParamTok) : List Char :=
  (if p.negS then ['-'] else []) ++ p.digits

/-- Value of a parameter token. -/
def ParamTok.val (p : ParamTok) : Int :=
  if p.negS then -1 * digitsVal p.digits else digitsVal p.digits

/-- Code-accepted well-formedness of a parameter token: digit characters
only, at least one digit, and sign-plus-digits within MAX_PARAM_LENGTH. -/
def ParamTok.wf (p : ParamTok) : Prop :=
  (∀ c ∈ p.digits, '0' ≤ c ∧ c ≤ '9') ∧ 1 ≤ p.digits.length ∧
    p.digits.length + (if p.negS then 1 else 0) ≤ MAX_PARAM_LENGTH

/-- A command token: the two code characters and the parameter tokens. -/
structure CmdTok where
  c0 : Char
  c1 : Char
  ps : List ParamTok

/-- Spelling of a command token. -/
def CmdTok.chars (t : CmdTok) : List Char :=
  '<' :: t.c0 :: t.c1 :: ((t.ps.map (fun p => ',' :: p.chars)).flatten ++ ['>'])

/-- Well-formedness of a command token (code-accepted grammar). -/
def CmdTok.wf (t : CmdTok) : Prop :=
  ('A' ≤ t.c0 ∧ t.c0 ≤ 'Z') ∧ ('A' ≤ t.c1 ∧ t.c1 ≤ 'Z') ∧
    t.ps.length ≤ 5 ∧ ∀ p ∈ t.ps, p.wf

/-- The dispatch a well-formed command denotes: its code and parameter
values, missing parameters defaulting to 0. -/
def CmdTok.dispatch (t : CmdTok) : Dispatch :=
  let v := t.ps.map ParamTok.val
  ⟨t.c0, t.c1, v.getD 0 0, v.getD 1 0, v.getD 2 0, v.getD 3 0, v.getD 4 0⟩

/-- The ASCII bytes of `<SV,0,n,0,0,0>` with n in decimal (optional
leading minus sign). -/
def fmtSV (n : Int) : List Char :=
  [ '<', 'S', 'V', ',', '0', ','] ++ intChars n ++ [ ',', '0', ',', '0', ',', '0', '>']

/-- The command token whose spelling is `fmtSV n`. -/
def svTok (n : Int) : CmdTok :=
  ⟨'S', 'V',
   [⟨false, ['0']⟩, ⟨decide (n < 0), natDigits n.natAbs⟩,
    ⟨false, ['0']⟩, ⟨false, ['0']⟩, ⟨false, ['0']⟩]⟩

/-- Specification of the parser's parameter values after consuming the
parameter tokens `ps` starting at parameter slot `k` with previous values
`f`: slots before `k` keep their values, slot `k + j` gets the value of
the j-th token, later slots keep the 0 they were reset to. -/
def pval (f : Fin 5 → Int) (k : Fin 5) (ps : List ParamTok) (i : Fin 5) : Int :=
  if (i : Nat) < (k : Nat) then f i
  else (ps.map ParamTok.val).getD ((i : Nat) - (k : Nat)) 0

/-! ## Noise removal, modelled from the spec

Modelled from the spec: "for any byte sequence, feeding it one byte at a
time must yield the same sequence of dispatched commands as feeding a
perfectly well-formed subsequence with noise removed".  The spec does not
give an algorithm; the canonical reading implemented here scans the input
once and keeps exactly the well-formed command substrings (a well-formed
command necessarily runs from a `<` to the first `>` after it, since
neither of these characters may occur inside a command), dropping every
other byte as noise.  Well-formedness of a parameter follows the spec
grammar: an optional leading minus sign followed by 1 to 6 digits. -/

/-- Uppercase test, as a Bool. -/
def isUpperB (c : Char) : Bool := decide ('A' ≤ c) && decide (c ≤ 'Z')

/-- Digit test, as a Bool. -/
def isDigitB (c : Char) : Bool := decide ('0' ≤ c) && decide (c ≤ '9')

/-- Spec-grammar parameter text: optional minus then 1-6 digits. -/
def specParamB (cs : List Char) : Bool :=
  match cs with
  | '-' :: ds => ds.all isDigitB && decide (1 ≤ ds.length) && decide (ds.length ≤ 6)
  | ds => ds.all isDigitB && decide (1 ≤ ds.length) && decide (ds.length ≤ 6)

/-- Spec-grammar parameter list text (`("," PARAM){0,n}`): the first
argument is the number of parameters still allowed. -/
def specParamsB : Nat → List Char → Bool
  | _, [] => true
  | 0, _ :: _ => false
  | n + 1, c :: rest =>
      c = ',' && specParamB (rest.takeWhile (fun x => x != ',')) &&
        specParamsB n (rest.dropWhile (fun x => x != ','))

/-- Spec-grammar body of a command (the text between `<` and `>`). -/
def specBodyB (cs : List Char) : Bool :=
  match cs with
  | c0 :: c1 :: rest => isUpperB c0 && isUpperB c1 && specParamsB 5 rest
  | _ => false

/-- Worker for `extractWf`; the first argument is fuel (each step consumes
at least one input character, so `cs.length` fuel always suffices). -/
def extractWfAux : Nat → List Char → List Char
  | _, [] => []
  | 0, _ :: _ => []
  | fuel + 1, c :: rest =>
      if c = '<' ∧ (rest.dropWhile (fun x => x != '>')) ≠ [] ∧
          specBodyB (rest.takeWhile (fun x => x != '>')) then
        ('<' :: rest.takeWhile (fun x => x != '>') ++ ['>']) ++
          extractWfAux fuel (rest.dropWhile (fun x => x != '>')).tail
      else
        extractWfAux fuel rest

/-- The well-formed subsequence of a byte sequence, with noise removed
(see the section comment above). -/
def extractWf (cs : List Char) : List Char := extractWfAux cs.length cs

/-! ## Sequencer: animation data (lines 139-613 of the sketch) -/

/-- One row of an animation data array:
`{ tweenTime, leftHip, leftFoot, rightHip, rightFoot }`. -/
structure Frame where
  tween : Int
  lh : Int
  lf : Int
  rh : Int
  rf : Int
deriving DecidableEq

/-- Servo configuration constants (lines 150-171). -/
def FRONT_JOINT_HIPS : Int := 1

def LEFT_HIP_CENTRE : Int := 1580

def LEFT_FOOT_CENTRE : Int := 1410

def RIGHT_HIP_CENTRE : Int := 1500

def RIGHT_FOOT_CENTRE : Int := 1465

def FOOT_DELTA : Int := 150

def HIP_DELTA : Int := FRONT_JOINT_HIPS * 120

/-- Joint value helpers (lines 1760-1774). -/
def LeftHipCentre : Int := LEFT_HIP_CENTRE

def LeftHipIn (m : Int) : Int := LEFT_HIP_CENTRE + FRONT_JOINT_HIPS * m

def LeftHipOut (m : Int) : Int := LEFT_HIP_CENTRE - FRONT_JOINT_HIPS * m

def RightHipCentre : Int := RIGHT_HIP_CENTRE

def RightHipIn (m : Int) : Int := RIGHT_HIP_CENTRE - FRONT_JOINT_HIPS * m

def RightHipOut (m : Int) : Int := RIGHT_HIP_CENTRE + FRONT_JOINT_HIPS * m

def LeftFootFlat : Int := LEFT_FOOT_CENTRE

def LeftFootUp (m : Int) : Int := LEFT_FOOT_CENTRE - m

def LeftFootDown (m : Int) : Int := LEFT_FOOT_CENTRE + m

def RightFootFlat : Int := RIGHT_FOOT_CENTRE

def RightFootUp (m : Int) : Int := RIGHT_FOOT_CENTRE + m

def RightFootDown (m : Int) : Int := RIGHT_FOOT_CENTRE - m

/-- standStraightAnim (lines 209-215). -/
def standStraightAnim : List Frame :=
  [⟨1, 0, 0, 0, 0⟩,
   ⟨300, LeftHipCentre, LeftFootFlat, RightHipCentre, RightFootFlat⟩]

/-- walkForwardAnim (lines 219-246). -/
def walkForwardAnim : List Frame :=
  [⟨8, 0, 0, 0, 0⟩,
   ⟨300, LeftHipCentre, LeftFootUp FOOT_DELTA, RightHipCentre, RightFootDown FOOT_DELTA⟩,
   ⟨300, LeftHipIn HIP_DELTA, LeftFootUp FOOT_DELTA, RightHipOut HIP_DELTA, RightFootDown FOOT_DELTA⟩,
   ⟨300, LeftHipIn HIP_DELTA, LeftFootFlat, RightHipOut HIP_DELTA, RightFootFlat⟩,
   ⟨300, LeftHipIn HIP_DELTA, LeftFootDown FOOT_DELTA, RightHipOut HIP_DELTA, RightFootUp FOOT_DELTA⟩,
   ⟨300, LeftHipCentre, LeftFootDown FOOT_DELTA, RightHipCentre, RightFootUp FOOT_DELTA⟩,
   ⟨300, LeftHipOut HIP_DELTA, LeftFootDown FOOT_DELTA, RightHipIn HIP_DELTA, RightFootUp FOOT_DELTA⟩,
   ⟨300, LeftHipOut HIP_DELTA, LeftFootFlat, RightHipIn HIP_DELTA, RightFootFlat⟩,
   ⟨300, LeftHipOut HIP_DELTA, LeftFootUp FOOT_DELTA, RightHipIn HIP_DELTA, RightFootDown FOOT_DELTA⟩]

/-- walkBackwardAnim (lines 250-277). -/
def walkBackwardAnim : List Frame :=
  [⟨8, 0, 0, 0, 0⟩,
   ⟨300, LeftHipCentre, LeftFootUp FOOT_DELTA, RightHipCentre, RightFootDown FOOT_DELTA⟩,
   ⟨300, LeftHipOut HIP_DELTA, LeftFootUp FOOT_DELTA, RightHipIn HIP_DELTA, RightFootDown FOOT_DELTA⟩,
   ⟨300, LeftHipOut HIP_DELTA, LeftFootFlat, RightHipIn HIP_DELTA, RightFootFlat⟩,
   ⟨300, LeftHipOut HIP_DELTA, LeftFootDown FOOT_DELTA, RightHipIn HIP_DELTA, RightFootUp FOOT_DELTA⟩,
   ⟨300, LeftHipCentre, LeftFootDown FOOT_DELTA, RightHipCentre, RightFootUp FOOT_DELTA⟩,
   ⟨300, LeftHipIn HIP_DELTA, LeftFootDown FOOT_DELTA, RightHipOut HIP_DELTA, RightFootUp FOOT_DELTA⟩,
   ⟨300, LeftHipIn HIP_DELTA, LeftFootFlat, RightHipOut HIP_DELTA, RightFootFlat⟩,
   ⟨300, LeftHipIn HIP_DELTA, LeftFootUp FOOT_DELTA, RightHipOut HIP_DELTA, RightFootDown FOOT_DELTA⟩]

/-- walkEndAnim (lines 280-289). -/
def walkEndAnim : List Frame :=
  [⟨2, 0, 0, 0, 0⟩,
   ⟨300, LeftHipCentre, LeftFootUp FOOT_DELTA, RightHipCentre, RightFootDown FOOT_DELTA⟩,
   ⟨300, LeftHipCentre, LeftFootFlat, RightHipCentre, RightFootFlat⟩]

/-- turnLeftAnim (lines 293-314). -/
def turnLeftAnim : List Frame :=
  [⟨6, 0, 0, 0, 0⟩,
   ⟨300, LeftHipCentre, LeftFootUp FOOT_DELTA, RightHipCentre, RightFootDown FOOT_DELTA⟩,
   ⟨300, LeftHipIn HIP_DELTA, LeftFootUp FOOT_DELTA, RightHipIn HIP_DELTA, RightFootDown FOOT_DELTA⟩,
   ⟨300, LeftHipIn HIP_DELTA, LeftFootFlat, RightHipIn HIP_DELTA, RightFootFlat⟩,
   ⟨300, LeftHipIn HIP_DELTA, LeftFootDown FOOT_DELTA, RightHipIn HIP_DELTA, RightFootUp FOOT_DELTA⟩,
   ⟨300, LeftHipCentre, LeftFootDown FOOT_DELTA, RightHipCentre, RightFootUp FOOT_DELTA⟩,
   ⟨300, LeftHipCentre, LeftFootFlat, RightHipCentre, RightFootFlat⟩]

/-- turnRightAnim (lines 318-339). -/
def turnRightAnim : List Frame :=
  [⟨6, 0, 0, 0, 0⟩,
   ⟨300, LeftHipCentre, LeftFootDown FOOT_DELTA, RightHipCentre, RightFootUp FOOT_DELTA⟩,
   ⟨300, LeftHipIn HIP_DELTA, LeftFootDown FOOT_DELTA, RightHipIn HIP_DELTA, RightFootUp FOOT_DELTA⟩,
   ⟨300, LeftHipIn HIP_DELTA, LeftFootFlat, RightHipIn HIP_DELTA, RightFootFlat⟩,
   ⟨300, LeftHipIn HIP_DELTA, LeftFootUp FOOT_DELTA, RightHipIn HIP_DELTA, RightFootDown FOOT_DELTA⟩,
   ⟨300, LeftHipCentre, LeftFootUp FOOT_DELTA, RightHipCentre, RightFootDown FOOT_DELTA⟩,
   ⟨300, LeftHipCentre, LeftFootFlat, RightHipCentre, RightFootFlat⟩]

/-- shakeHeadAnim (lines 343-358). -/
def shakeHeadAnim : List Frame :=
  [⟨4, 0, 0, 0, 0⟩,
   ⟨150, LeftHipOut HIP_DELTA, LeftFootFlat, RightHipIn HIP_DELTA, RightFootFlat⟩,
   ⟨150, LeftHipCentre, LeftFootFlat, RightHipCentre, RightFootFlat⟩,
   ⟨150, LeftHipIn HIP_DELTA, LeftFootFlat, RightHipOut HIP_DELTA, RightFootFlat⟩,
   ⟨150, LeftHipCentre, LeftFootFlat, RightHipCentre, RightFootFlat⟩]

/-- wobbleAnim (lines 362-377). -/
def wobbleAnim : List Frame :=
  [⟨4, 0, 0, 0, 0⟩,
   ⟨300, LeftHipCentre, LeftFootUp FOOT_DELTA, RightHipCentre, RightFootDown FOOT_DELTA⟩,
   ⟨300, LeftHipCentre, LeftFootFlat, RightHipCentre, RightFootFlat⟩,
   ⟨300, LeftHipCentre, LeftFootDown FOOT_DELTA, RightHipCentre, RightFootUp FOOT_DELTA⟩,
   ⟨300, LeftHipCentre, LeftFootFlat, RightHipCentre, RightFootFlat⟩]

/-- wobbleLeftAnim (lines 380-389). -/
def wobbleLeftAnim : List Frame :=
  [⟨2, 0, 0, 0, 0⟩,
   ⟨300, LeftHipCentre, LeftFootUp FOOT_DELTA, RightHipCentre, RightFootDown FOOT_DELTA⟩,
   ⟨300, LeftHipCentre, LeftFootFlat, RightHipCentre, RightFootFlat⟩]

/-- wobbleRightAnim (lines 393-402). -/
def wobbleRightAnim : List Frame :=
  [⟨2, 0, 0, 0, 0⟩,
   ⟨300, LeftHipCentre, LeftFootDown FOOT_DELTA, RightHipCentre, RightFootUp FOOT_DELTA⟩,
   ⟨300, LeftHipCentre, LeftFootFlat, RightHipCentre, RightFootFlat⟩]

/-- tapFeetAnim (lines 406-415). -/
def tapFeetAnim : List Frame :=
  [⟨2, 0, 0, 0, 0⟩,
   ⟨500, LeftHipCentre, LeftFootUp FOOT_DELTA, RightHipCentre, RightFootUp FOOT_DELTA⟩,
   ⟨500, LeftHipCentre, LeftFootFlat, RightHipCentre, RightFootFlat⟩]

/-- tapLeftFootAnim (lines 419-428). -/
def tapLeftFootAnim : List Frame :=
  [⟨2, 0, 0, 0, 0⟩,
   ⟨500, LeftHipCentre, LeftFootUp FOOT_DELTA, RightHipCentre, RightFootFlat⟩,
   ⟨500, LeftHipCentre, LeftFootFlat, RightHipCentre, RightFootFlat⟩]

/-- tapRightFootAnim (lines 432-441). -/
def tapRightFootAnim : List Frame :=
  [⟨2, 0, 0, 0, 0⟩,
   ⟨500, LeftHipCentre, LeftFootFlat, RightHipCentre, RightFootUp FOOT_DELTA⟩,
   ⟨500, LeftHipCentre, LeftFootFlat, RightHipCentre, RightFootFlat⟩]

/-- bounceAnim (lines 445-454). -/
def bounceAnim : List Frame :=
  [⟨2, 0, 0, 0, 0⟩,
   ⟨500, LeftHipCentre, LeftFootDown 300, RightHipCentre, RightFootDown 300⟩,
   ⟨500, LeftHipCentre, LeftFootFlat, RightHipCentre, RightFootFlat⟩]

/-- shakeLegsAnim (lines 458-503). -/
def shakeLegsAnim : List Frame :=
  [⟨14, 0, 0, 0, 0⟩,
   ⟨300, LeftHipCentre, LeftFootUp FOOT_DELTA, RightHipCentre, RightFootDown FOOT_DELTA⟩,
   ⟨100, LeftHipCentre, LeftFootUp FOOT_DELTA, RightHipIn HIP_DELTA, RightFootDown FOOT_DELTA⟩,
   ⟨100, LeftHipCentre, LeftFootUp FOOT_DELTA, RightHipCentre, RightFootDown FOOT_DELTA⟩,
   ⟨100, LeftHipCentre, LeftFootUp FOOT_DELTA, RightHipOut HIP_DELTA, RightFootDown FOOT_DELTA⟩,
   ⟨100, LeftHipCentre, LeftFootUp FOOT_DELTA, RightHipCentre, RightFootDown FOOT_DELTA⟩,
   ⟨100, LeftHipCentre, LeftFootUp FOOT_DELTA, RightHipIn HIP_DELTA, RightFootDown FOOT_DELTA⟩,
   ⟨100, LeftHipCentre, LeftFootUp FOOT_DELTA, RightHipCentre, RightFootDown FOOT_DELTA⟩,
   ⟨300, LeftHipCentre, LeftFootFlat, RightHipCentre, RightFootFlat⟩,
   ⟨300, LeftHipCentre, LeftFootDown FOOT_DELTA, RightHipCentre, RightFootUp FOOT_DELTA⟩,
   ⟨100, LeftHipIn HIP_DELTA, LeftFootDown FOOT_DELTA, RightHipCentre, RightFootUp FOOT_DELTA⟩,
   ⟨100, LeftHipCentre, LeftFootDown FOOT_DELTA, RightHipCentre, RightFootUp FOOT_DELTA⟩,
   ⟨100, LeftHipOut HIP_DELTA, LeftFootDown FOOT_DELTA, RightHipCentre, RightFootUp FOOT_DELTA⟩,
   ⟨100, LeftHipCentre, LeftFootDown FOOT_DELTA, RightHipCentre, RightFootUp FOOT_DELTA⟩,
   ⟨300, LeftHipCentre, LeftFootFlat, RightHipCentre, RightFootFlat⟩]

/-- shakeLeftLegAnim (lines 507-546). -/
def shakeLeftLegAnim : List Frame :=
  [⟨12, 0, 0, 0, 0⟩,
   ⟨300, LeftHipCentre, LeftFootDown FOOT_DELTA, RightHipCentre, RightFootUp FOOT_DELTA⟩,
   ⟨100, LeftHipIn HIP_DELTA, LeftFootDown FOOT_DELTA, RightHipCentre, RightFootUp FOOT_DELTA⟩,
   ⟨100, LeftHipCentre, LeftFootDown FOOT_DELTA, RightHipCentre, RightFootUp FOOT_DELTA⟩,
   ⟨100, LeftHipOut HIP_DELTA, LeftFootDown FOOT_DELTA, RightHipCentre, RightFootUp FOOT_DELTA⟩,
   ⟨100, LeftHipCentre, LeftFootDown FOOT_DELTA, RightHipCentre, RightFootUp FOOT_DELTA⟩,
   ⟨100, LeftHipIn HIP_DELTA, LeftFootDown FOOT_DELTA, RightHipCentre, RightFootUp FOOT_DELTA⟩,
   ⟨100, LeftHipCentre, LeftFootDown FOOT_DELTA, RightHipCentre, RightFootUp FOOT_DELTA⟩,
   ⟨100, LeftHipOut HIP_DELTA, LeftFootDown FOOT_DELTA, RightHipCentre, RightFootUp FOOT_DELTA⟩,
   ⟨100, LeftHipCentre, LeftFootDown FOOT_DELTA, RightHipCentre, RightFootUp FOOT_DELTA⟩,
   ⟨100, LeftHipIn HIP_DELTA, LeftFootDown FOOT_DELTA, RightHipCentre, RightFootUp FOOT_DELTA⟩,
   ⟨100, LeftHipCentre, LeftFootDown FOOT_DELTA, RightHipCentre, RightFootUp FOOT_DELTA⟩,
   ⟨300, LeftHipCentre, LeftFootFlat, RightHipCentre, RightFootFlat⟩]

/-- shakeRightLegAnim (lines 550-589). -/
def shakeRightLegAnim : List Frame :=
  [⟨12, 0, 0, 0, 0⟩,
   ⟨300, LeftHipCentre, LeftFootUp FOOT_DELTA, RightHipCentre, RightFootDown FOOT_DELTA⟩,
   ⟨100, LeftHipCentre, LeftFootUp FOOT_DELTA, RightHipIn HIP_DELTA, RightFootDown FOOT_DELTA⟩,
   ⟨100, LeftHipCentre, LeftFootUp FOOT_DELTA, RightHipCentre, RightFootDown FOOT_DELTA⟩,
   ⟨100, LeftHipCentre, LeftFootUp FOOT_DELTA, RightHipOut HIP_DELTA, RightFootDown FOOT_DELTA⟩,
   ⟨100, LeftHipCentre, LeftFootUp FOOT_DELTA, RightHipCentre, RightFootDown FOOT_DELTA⟩,
   ⟨100, LeftHipCentre, LeftFootUp FOOT_DELTA, RightHipIn HIP_DELTA, RightFootDown FOOT_DELTA⟩,
   ⟨100, LeftHipCentre, LeftFootUp FOOT_DELTA, RightHipCentre, RightFootDown FOOT_DELTA⟩,
   ⟨100, LeftHipCentre, LeftFootUp FOOT_DELTA, RightHipOut HIP_DELTA, RightFootDown FOOT_DELTA⟩,
   ⟨100, LeftHipCentre, LeftFootUp FOOT_DELTA, RightHipCentre, RightFootDown FOOT_DELTA⟩,
   ⟨100, LeftHipCentre, LeftFootUp FOOT_DELTA, RightHipIn HIP_DELTA, RightFootDown FOOT_DELTA⟩,
   ⟨100, LeftHipCentre, LeftFootUp FOOT_DELTA, RightHipCentre, RightFootDown FOOT_DELTA⟩,
   ⟨300, LeftHipCentre, LeftFootFlat, RightHipCentre, RightFootFlat⟩]

/-! ## Sequencer: state and tick (lines 592-1745) -/

/-- The animations of the sketch, by name.  An `AnimRef` stands for the
pointer to the corresponding array; pointer equality is name equality. -/
inductive AnimRef where
  | standStraight
  | walkForward
  | walkBackward
  | walkEnd
  | turnLeft
  | turnRight
  | shakeHead
  | wobble
  | wobbleLeft
  | wobbleRight
  | tapFeet
  | tapLeftFoot
  | tapRightFoot
  | bounce
  | shakeLegs
  | shakeLeftLeg
  | shakeRightLeg
  | setServos1
  | setServos2
deriving DecidableEq

/-- The mutable animation data: the single data frame of each of the two
SetServos scratch animations (lines 599-613); everything else is const. -/
structure AnimStore where
  ss1 : Frame
  ss2 : Frame
deriving DecidableEq

/-- The data array an `AnimRef` points to. -/
def animData (st : AnimStore) : AnimRef → List Frame
  | .standStraight => standStraightAnim
  | .walkForward => walkForwardAnim
  | .walkBackward => walkBackwardAnim
  | .walkEnd => walkEndAnim
  | .turnLeft => turnLeftAnim
  | .turnRight => turnRightAnim
  | .shakeHead => shakeHeadAnim
  | .wobble => wobbleAnim
  | .wobbleLeft => wobbleLeftAnim
  | .wobbleRight => wobbleRightAnim
  | .tapFeet => tapFeetAnim
  | .tapLeftFoot => tapLeftFootAnim
  | .tapRightFoot => tapRightFootAnim
  | .bounce => bounceAnim
  | .shakeLegs => shakeLegsAnim
  | .shakeLeftLeg => shakeLeftLegAnim
  | .shakeRightLeg => shakeRightLegAnim
  | .setServos1 => [⟨1, 0, 0, 0, 0⟩, st.ss1]
  | .setServos2 => [⟨1, 0, 0, 0, 0⟩, st.ss2]

/-- Default frame used for (unreachable) out-of-bounds array accesses. -/
def FrameD : Frame := ⟨0, 0, 0, 0, 0⟩

/-- NumOfFrames (lines 1742-1745): the metadata element animData[0][0]. -/
def NumOfFrames (frames : List Frame) : Int := (frames.getD 0 FrameD).tween

/-- millisBetweenAnimUpdate (line 630). -/
def millisBetweenAnimUpdate : Int := 20

/-- The sequencer state: the animation globals of lines 633-674. -/
structure SysState where
  store : AnimStore
  timeAtLastAnimUpdate : Int
  currAnim : Option AnimRef
  finishAnim : Option AnimRef
  timeAtStartOfFrame : Int
  targetFrame : Nat
  animNumLoops : Int
  animCompleteStr : Char × Char
  animInProgress : Bool
  nextAnim : Option AnimRef
  nextFinishAnim : Option AnimRef
  nextAnimNumLoops : Int
  nextAnimCompleteStr : Char × Char
  interruptInProgressAnim : Bool
  currLeftHip : Int
  currLeftFoot : Int
  currRightHip : Int
  currRightFoot : Int
  startLeftHip : Int
  startLeftFoot : Int
  startRightHip : Int
  startRightFoot : Int
deriving DecidableEq

/-- The observable events of a tick: completion notifications printed to
the serial port (`<TAG>` on normal completion, `<TAG,-1>` after an
interrupt), servo writes (UpdateServos), and the marker recorded when the
frameTimeFraction computation divides by zero (a 0 ms frame duration). -/
inductive Ev where
  | notifyDone (tag : Char × Char)
  | notifyInterrupted (tag : Char × Char)
  | servoWrite (lh lf rh rf : Int)
  | divByZero
deriving DecidableEq

/-- The completion notifications among a tick's events. -/
def notifEvents (evs : List Ev) : List Ev :=
  evs.filter (fun e =>
    match e with
    | Ev.notifyDone _ => true
    | Ev.notifyInterrupted _ => true
    | _ => false)

/-- Only the interrupted-completion notifications among a tick's events. -/
def interruptNotifs (evs : List Ev) : List Ev :=
  evs.filter (fun e =>
    match e with
    | Ev.notifyInterrupted _ => true
    | _ => false)

/-- The data array of the currently playing animation. -/
def curFrames (s : SysState) : List Frame :=
  match s.currAnim with
  | some r => animData s.store r
  | none => []

/-- The per-tick linear interpolation of one joint (lines 1701-1721):
the sketch computes `start + (target - start) * (elapsed / (float) dur)`
in IEEE float and truncates to `int` on assignment; this is that value
computed exactly and truncated toward zero.  For `dur = 0` the sketch
divides by zero (NaN); the embedding returns `start` there and the tick
records `Ev.divByZero`. -/
def lerpJoint (start target elapsed dur : Int) : Int :=
  if dur = 0 then start
  else (start * dur + (target - start) * elapsed).tdiv dur

/-- currAnim[targetFrame], the keyframe being tweened to. -/
def targetKF (s : SysState) : Frame := (curFrames s).getD s.targetFrame FrameD

/-- The value the left hip snaps to when the target keyframe resolves
(lines 1569-1572): the keyframe's value unless it is the absent
sentinel (negative), in which case the joint keeps its position. -/
def snapLH (s : SysState) : Int :=
  if (targetKF s).lh ≥ 0 then (targetKF s).lh else s.currLeftHip

/-- Left foot snap value (lines 1573-1576). -/
def snapLF (s : SysState) : Int :=
  if (targetKF s).lf ≥ 0 then (targetKF s).lf else s.currLeftFoot

/-- Right hip snap value (lines 1577-1580). -/
def snapRH (s : SysState) : Int :=
  if (targetKF s).rh ≥ 0 then (targetKF s).rh else s.currRightHip

/-- Right foot snap value (lines 1581-1584). -/
def snapRF (s : SysState) : Int :=
  if (targetKF s).rf ≥ 0 then (targetKF s).rf else s.currRightFoot

/-- Per-tick tween value of the left hip (lines 1703-1706): lerp toward
the target keyframe unless the joint is absent there. -/
def tweenLH (s : SysState) (currTime : Int) : Int :=
  if (targetKF s).lh ≥ 0 then
    lerpJoint s.startLeftHip (targetKF s).lh (currTime - s.timeAtStartOfFrame) (targetKF s).tween
  else s.currLeftHip

/-- Per-tick tween value of the left foot (lines 1708-1711). -/
def tweenLF (s : SysState) (currTime : Int) : Int :=
  if (targetKF s).lf ≥ 0 then
    lerpJoint s.startLeftFoot (targetKF s).lf (currTime - s.timeAtStartOfFrame) (targetKF s).tween
  else s.currLeftFoot

/-- Per-tick tween value of the right hip (lines 1713-1716). -/
def tweenRH (s : SysState) (currTime : Int) : Int :=
  if (targetKF s).rh ≥ 0 then
    lerpJoint s.startRightHip (targetKF s).rh (currTime - s.timeAtStartOfFrame) (targetKF s).tween
  else s.currRightHip

/-- Per-tick tween value of the right foot (lines 1718-1721). -/
def tweenRF (s : SysState) (currTime : Int) : Int :=
  if (targetKF s).rf ≥ 0 then
    lerpJoint s.startRightFoot (targetKF s).rf (currTime - s.timeAtStartOfFrame) (targetKF s).tween
  else s.currRightFoot

/-- The promotion step of loop_Animation (lines 1507-1553): if something
is queued and nothing is playing (or an interrupt was requested), notify
an interrupted animation, capture current positions as the interpolation
origin, and move the queue into the playback state. -/
def startQueuedAnim (s : SysState) (currTime : Int) : SysState × List Ev :=
  if s.nextAnim.isSome ∧ (s.animInProgress = false ∨ s.interruptInProgressAnim = true) then
    let se :=
      if s.interruptInProgressAnim then
        ({ s with startLeftHip := s.currLeftHip, startLeftFoot := s.currLeftFoot,
                  startRightHip := s.currRightHip, startRightFoot := s.currRightFoot,
                  interruptInProgressAnim := false },
         [Ev.notifyInterrupted s.animCompleteStr])
      else (s, ([] : List Ev))
    let s1 := se.1
    ({ s1 with currAnim := s1.nextAnim, finishAnim := s1.nextFinishAnim,
               animCompleteStr := s1.nextAnimCompleteStr,
               nextAnim := none, nextFinishAnim := none,
               nextAnimCompleteStr := ('-', '-'),
               animNumLoops := s1.nextAnimNumLoops,
               timeAtStartOfFrame := currTime,
               targetFrame := 1,
               animInProgress := true }, se.2)
  else (s, [])

/-- The frame-advance step of loop_Animation (lines 1560-1692), run while
an animation is in progress: if the target keyframe's time is up, snap the
non-absent joints to its values, capture them as the new interpolation
origin, advance the target frame, and at the end of a pass apply the loop
resolution policy. -/
def frameAdvance (s : SysState) (currTime : Int) : SysState × List Ev :=
  if currTime - s.timeAtStartOfFrame > (targetKF s).tween then
    let s1 : SysState := { s with
      currLeftHip := snapLH s, currLeftFoot := snapLF s,
      currRightHip := snapRH s, currRightFoot := snapRF s,
      startLeftHip := snapLH s, startLeftFoot := snapLF s,
      startRightHip := snapRH s, startRightFoot := snapRF s,
      targetFrame := s.targetFrame + 1, timeAtStartOfFrame := currTime }
    let evs := [Ev.servoWrite (snapLH s) (snapLF s) (snapRH s) (snapRF s)]
    if (s1.targetFrame : Int) > NumOfFrames (curFrames s) then
      let s2 : SysState := { s1 with animInProgress := false }
      if s2.animNumLoops < 0 ∧ s2.nextAnim = none then
        -- LoopAnim(currAnim, finishAnim, animCompleteStr), line 1616
        ({ s2 with nextAnim := s2.currAnim, nextFinishAnim := s2.finishAnim,
                   nextAnimNumLoops := -1, nextAnimCompleteStr := s2.animCompleteStr }, evs)
      else if s2.animNumLoops < 0 ∧ s2.nextAnim ≠ none then
        match s2.finishAnim with
        | some fr =>
            ({ s2 with currAnim := some fr, finishAnim := none, animNumLoops := 1,
                       timeAtStartOfFrame := currTime, targetFrame := 1,
                       animInProgress := true }, evs)
        | none => (s2, evs ++ [Ev.notifyDone s2.animCompleteStr])
      else if s2.animNumLoops > 1 ∧ s2.nextAnim = none then
        -- PlayAnimNumTimes(currAnim, finishAnim, animNumLoops-1, animCompleteStr), line 1655
        ({ s2 with nextAnim := s2.currAnim, nextFinishAnim := s2.finishAnim,
                   nextAnimNumLoops := s2.animNumLoops - 1,
                   nextAnimCompleteStr := s2.animCompleteStr }, evs)
      else
        match s2.finishAnim with
        | some fr =>
            ({ s2 with currAnim := some fr, finishAnim := none, animNumLoops := 1,
                       timeAtStartOfFrame := currTime, targetFrame := 1,
                       animInProgress := true }, evs)
        | none => (s2, evs ++ [Ev.notifyDone s2.animCompleteStr])
    else (s1, evs)
  else (s, [])

/-- The interpolation step of loop_Animation (lines 1696-1724), run while
an animation remains in progress: tween each non-absent joint toward the
target keyframe and push the positions to the servos. -/
def tweenServos (s : SysState) (currTime : Int) : SysState × List Ev :=
  ({ s with
      currLeftHip := tweenLH s currTime, currLeftFoot := tweenLF s currTime,
      currRightHip := tweenRH s currTime, currRightFoot := tweenRF s currTime },
   (if (targetKF s).tween = 0 then [Ev.divByZero] else []) ++
     [Ev.servoWrite (tweenLH s currTime) (tweenLF s currTime)
       (tweenRH s currTime) (tweenRF s currTime)])

/-- The body of a loop_Animation call once the update-interval check has
passed (lines 1502-1725): promotion, frame advance while playing, then
interpolation while still playing. -/
def animBody (s : SysState) (currTime : Int) : SysState × List Ev :=
  let pe := startQueuedAnim s currTime
  if pe.1.animInProgress = false then pe
  else
    let ae := frameAdvance pe.1 currTime
    if ae.1.animInProgress = false then (ae.1, pe.2 ++ ae.2)
    else
      let te := tweenServos ae.1 currTime
      (te.1, pe.2 ++ ae.2 ++ te.2)

/-- One loop_Animation call (lines 1482-1726) at time `currTime`
(the `millis()` reading), returning the new state and the tick's events.
If the update interval has not elapsed it does nothing; otherwise it
resets the update timer and runs `animBody`. -/
def loop_Animation (s : SysState) (currTime : Int) : SysState × List Ev :=
  if s.timeAtLastAnimUpdate + millisBetweenAnimUpdate > currTime then (s, [])
  else animBody { s with timeAtLastAnimUpdate := currTime } currTime

/-- A sequence of loop_Animation calls at the given times. -/
def runTicks (s : SysState) : List Int → SysState × List Ev
  | [] => (s, [])
  | t :: ts =>
      let se := loop_Animation s t
      let rest := runTicks se.1 ts
      (rest.1, se.2 ++ rest.2)

/-- The (currAnim, targetFrame, animInProgress) projection of the state
after each tick of a run: which animation is playing which frame. -/
def projTrace (s : SysState) : List Int → List (Option AnimRef × Nat × Bool)
  | [] => []
  | t :: ts =>
      let s1 := (loop_Animation s t).1
      (s1.currAnim, s1.targetFrame, s1.animInProgress) :: projTrace s1 ts

/-- Tick times `t0 + d, t0 + 2d, ..., t0 + n*d`. -/
def schedule (t0 d : Int) (n : Nat) : List Int :=
  (List.range n).map (fun i : Nat => t0 + ((i : Int) + 1) * d)

/-! ## Sequencer: the command intake API (lines 1354-1447) -/

/-- PlayAnimNumTimes (lines 1371-1389): unconditionally overwrite the
one-slot queue.  A NULL completeStr is `none`. -/
def PlayAnimNumTimes (s : SysState) (animToPlay : AnimRef) (finish : Option AnimRef)
    (numTimes : Int) (completeStr : Option (Char × Char)) : SysState :=
  { s with nextAnim := some animToPlay, nextFinishAnim := finish,
           nextAnimNumLoops := numTimes,
           nextAnimCompleteStr :=
             match completeStr with
             | none => ('-', '-')
             | some cs => cs }

/-- PlayAnim (lines 1355-1359). -/
def PlayAnim (s : SysState) (animToPlay : AnimRef) (finish : Option AnimRef)
    (completeStr : Option (Char × Char)) : SysState :=
  PlayAnimNumTimes s animToPlay finish 1 completeStr

/-- LoopAnim (lines 1362-1366). -/
def LoopAnim (s : SysState) (animToPlay : AnimRef) (finish : Option AnimRef)
    (completeStr : Option (Char × Char)) : SysState :=
  PlayAnimNumTimes s animToPlay finish (-1) completeStr

/-- StopAnim (lines 1392-1396). -/
def StopAnim (s : SysState) (completeStr : Option (Char × Char)) : SysState :=
  PlayAnimNumTimes s .standStraight none 1 completeStr

/-- StopAnimImmediate (lines 1400-1405). -/
def StopAnimImmediate (s : SysState) (completeStr : Option (Char × Char)) : SysState :=
  PlayAnimNumTimes { s with interruptInProgressAnim := true } .standStraight none 1 completeStr

/-- The scratch animation SetServos selects (lines 1428-1436): anim 1
unless that is the animation currently being played. -/
def setServosTarget (s : SysState) : AnimRef :=
  if s.currAnim ≠ some AnimRef.setServos1 then AnimRef.setServos1 else AnimRef.setServos2

/-- SetServos (lines 1412-1447): write the requested pose into the
selected scratch animation's data frame and queue that animation. -/
def SetServos (s : SysState) (tweenTime leftHip leftFoot rightHip rightFoot : Int)
    (completeStr : Option (Char × Char)) : SysState :=
  let s1 := { s with nextAnimCompleteStr :=
                match completeStr with
                | none => ('-', '-')
                | some cs => cs }
  let tgt := setServosTarget s1
  let fr : Frame := ⟨tweenTime, LeftHipIn leftHip, LeftFootUp leftFoot,
                     RightHipIn rightHip, RightFootUp rightFoot⟩
  let s2 := { s1 with store :=
                if tgt = AnimRef.setServos1 then { s1.store with ss1 := fr }
                else { s1.store with ss2 := fr } }
  PlayAnim s2 tgt none completeStr

/-- The state after setup_Animation (lines 1451-1475), with millis() = 0:
servos centred, nothing playing, nothing queued. -/
def setup_Animation : SysState :=
  { store := ⟨⟨0, LeftHipCentre, LeftFootFlat, RightHipCentre, RightFootFlat⟩,
              ⟨0, LeftHipCentre, LeftFootFlat, RightHipCentre, RightFootFlat⟩⟩,
    timeAtLastAnimUpdate := 0,
    currAnim := none, finishAnim := none,
    timeAtStartOfFrame := 0, targetFrame := 0, animNumLoops := 0,
    animCompleteStr := ('-', '-'),
    animInProgress := false,
    nextAnim := none, nextFinishAnim := none, nextAnimNumLoops := 0,
    nextAnimCompleteStr := ('-', '-'),
    interruptInProgressAnim := false,
    currLeftHip := LEFT_HIP_CENTRE, currLeftFoot := LEFT_FOOT_CENTRE,
    currRightHip := RIGHT_HIP_CENTRE, currRightFoot := RIGHT_FOOT_CENTRE,
    startLeftHip := LEFT_HIP_CENTRE, startLeftFoot := LEFT_FOOT_CENTRE,
    startRightHip := RIGHT_HIP_CENTRE, startRightFoot := RIGHT_FOOT_CENTRE }

/-- The invariant holding mid-pass while animation `ρ` is playing frame
`j`: the playback fields are as promotion or the last frame advance left
them, both time stamps sit at `tm` (the last tick that advanced or
started the frame), nothing is queued and no interrupt is pending. -/
def MidOK (ρ : AnimRef) (fin : Option AnimRef) (L : Int) (cs : Char × Char)
    (st : AnimStore) (tm : Int) (j : Nat) (s : SysState) : Prop :=
  s.store = st ∧ s.currAnim = some ρ ∧ s.finishAnim = fin ∧ s.targetFrame = j ∧
  s.animNumLoops = L ∧ s.animCompleteStr = cs ∧ s.animInProgress = true ∧
  s.nextAnim = none ∧ s.interruptInProgressAnim = false ∧
  s.timeAtStartOfFrame = tm ∧ s.timeAtLastAnimUpdate = tm

/-- Loop-count values the sketch treats identically: equal, or 0 on the
left where the spec's normalized API would have 1. -/
def LoopsOK (x y : Int) : Prop := x = y ∨ (x = 0 ∧ y = 1)

/-! ## Step lemmas for the sequencer phases -/

theorem startQueuedAnim_none (s : SysState) (t : Int) (h : s.nextAnim = none) :
    startQueuedAnim s t = (s, []) := by
  rw [startQueuedAnim, if_neg]
  simp [h]

theorem startQueuedAnim_promote (s : SysState) (t : Int) (α : AnimRef)
    (hα : s.nextAnim = some α)
    (h2 : s.animInProgress = false) (h3 : s.interruptInProgressAnim = false) :
    startQueuedAnim s t =
      ({ s with currAnim := some α, finishAnim := s.nextFinishAnim,
                animCompleteStr := s.nextAnimCompleteStr,
                nextAnim := none, nextFinishAnim := none,
                nextAnimCompleteStr := ('-', '-'),
                animNumLoops := s.nextAnimNumLoops,
                timeAtStartOfFrame := t, targetFrame := 1,
                animInProgress := true }, []) := by
  simp [startQueuedAnim, hα, h2, h3]

theorem startQueuedAnim_interrupt (s : SysState) (t : Int) (α : AnimRef)
    (hα : s.nextAnim = some α)
    (h3 : s.interruptInProgressAnim = true) :
    startQueuedAnim s t =
      ({ s with startLeftHip := s.currLeftHip, startLeftFoot := s.currLeftFoot,
                startRightHip := s.currRightHip, startRightFoot := s.currRightFoot,
                interruptInProgressAnim := false,
                currAnim := some α, finishAnim := s.nextFinishAnim,
                animCompleteStr := s.nextAnimCompleteStr,
                nextAnim := none, nextFinishAnim := none,
                nextAnimCompleteStr := ('-', '-'),
                animNumLoops := s.nextAnimNumLoops,
                timeAtStartOfFrame := t, targetFrame := 1,
                animInProgress := true }, [Ev.notifyInterrupted s.animCompleteStr]) := by
  simp [startQueuedAnim, hα, h3]

theorem frameAdvance_hold (s : SysState) (t : Int)
    (h : ¬ (t - s.timeAtStartOfFrame > (targetKF s).tween)) :
    frameAdvance s t = (s, []) := by
  rw [frameAdvance, if_neg h]

theorem frameAdvance_mid (s : SysState) (t : Int)
    (hadv : t - s.timeAtStartOfFrame > (targetKF s).tween)
    (hlt : ((s.targetFrame + 1 : Nat) : Int) ≤ NumOfFrames (curFrames s)) :
    frameAdvance s t =
      ({ s with currLeftHip := snapLH s, currLeftFoot := snapLF s,
                currRightHip := snapRH s, currRightFoot := snapRF s,
                startLeftHip := snapLH s, startLeftFoot := snapLF s,
                startRightHip := snapRH s, startRightFoot := snapRF s,
                targetFrame := s.targetFrame + 1, timeAtStartOfFrame := t },
       [Ev.servoWrite (snapLH s) (snapLF s) (snapRH s) (snapRF s)]) := by
  have hlt2 : ¬ (NumOfFrames (curFrames s) < (s.targetFrame : Int) + 1) := by
    push_cast at hlt
    omega
  simp [frameAdvance, hadv, hlt2]

theorem frameAdvance_requeue_inf (s : SysState) (t : Int)
    (hadv : t - s.timeAtStartOfFrame > (targetKF s).tween)
    (hgt : ((s.targetFrame + 1 : Nat) : Int) > NumOfFrames (curFrames s))
    (hL : s.animNumLoops < 0) (hn : s.nextAnim = none) :
    frameAdvance s t =
      ({ s with currLeftHip := snapLH s, currLeftFoot := snapLF s,
                currRightHip := snapRH s, currRightFoot := snapRF s,
                startLeftHip := snapLH s, startLeftFoot := snapLF s,
                startRightHip := snapRH s, startRightFoot := snapRF s,
                targetFrame := s.targetFrame + 1, timeAtStartOfFrame := t,
                animInProgress := false,
                nextAnim := s.currAnim, nextFinishAnim := s.finishAnim,
                nextAnimNumLoops := -1,
                nextAnimCompleteStr := s.animCompleteStr },
       [Ev.servoWrite (snapLH s) (snapLF s) (snapRH s) (snapRF s)]) := by
  have hgt2 : NumOfFrames (curFrames s) < (s.targetFrame : Int) + 1 := by
    push_cast at hgt
    omega
  simp [frameAdvance, hadv, hgt2, hL, hn]

theorem frameAdvance_requeue (s : SysState) (t : Int)
    (hadv : t - s.timeAtStartOfFrame > (targetKF s).tween)
    (hgt : ((s.targetFrame + 1 : Nat) : Int) > NumOfFrames (curFrames s))
    (hL : s.animNumLoops > 1) (hn : s.nextAnim = none) :
    frameAdvance s t =
      ({ s with currLeftHip := snapLH s, currLeftFoot := snapLF s,
                currRightHip := snapRH s, currRightFoot := snapRF s,
                startLeftHip := snapLH s, startLeftFoot := snapLF s,
                startRightHip := snapRH s, startRightFoot := snapRF s,
                targetFrame := s.targetFrame + 1, timeAtStartOfFrame := t,
                animInProgress := false,
                nextAnim := s.currAnim, nextFinishAnim := s.finishAnim,
                nextAnimNumLoops := s.animNumLoops - 1,
                nextAnimCompleteStr := s.animCompleteStr },
       [Ev.servoWrite (snapLH s) (snapLF s) (snapRH s) (snapRF s)]) := by
  have hgt2 : NumOfFrames (curFrames s) < (s.targetFrame : Int) + 1 := by
    push_cast at hgt
    omega
  have hneg : ¬ (s.animNumLoops < 0) := by omega
  simp [frameAdvance, hadv, hgt2, hneg, hL, hn]

theorem frameAdvance_to_finish (s : SysState) (t : Int) (φ : AnimRef)
    (hadv : t - s.timeAtStartOfFrame > (targetKF s).tween)
    (hgt : ((s.targetFrame + 1 : Nat) : Int) > NumOfFrames (curFrames s))
    (hL0 : 0 ≤ s.animNumLoops) (hL1 : s.animNumLoops ≤ 1)
    (hf : s.finishAnim = some φ) :
    frameAdvance s t =
      ({ s with currLeftHip := snapLH s, currLeftFoot := snapLF s,
                currRightHip := snapRH s, currRightFoot := snapRF s,
                startLeftHip := snapLH s, startLeftFoot := snapLF s,
                startRightHip := snapRH s, startRightFoot := snapRF s,
                targetFrame := 1, timeAtStartOfFrame := t,
                animInProgress := true,
                currAnim := some φ, finishAnim := none, animNumLoops := 1 },
       [Ev.servoWrite (snapLH s) (snapLF s) (snapRH s) (snapRF s)]) := by
  have hgt2 : NumOfFrames (curFrames s) < (s.targetFrame : Int) + 1 := by
    push_cast at hgt
    omega
  have hneg : ¬ (s.animNumLoops < 0) := by omega
  have hngt : ¬ (s.animNumLoops > 1) := by omega
  simp [frameAdvance, hadv, hgt2, hneg, hngt, hf]

theorem frameAdvance_done (s : SysState) (t : Int)
    (hadv : t - s.timeAtStartOfFrame > (targetKF s).tween)
    (hgt : ((s.targetFrame + 1 : Nat) : Int) > NumOfFrames (curFrames s))
    (hL0 : 0 ≤ s.animNumLoops) (hL1 : s.animNumLoops ≤ 1)
    (hf : s.finishAnim = none) :
    frameAdvance s t =
      ({ s with currLeftHip := snapLH s, currLeftFoot := snapLF s,
                currRightHip := snapRH s, currRightFoot := snapRF s,
                startLeftHip := snapLH s, startLeftFoot := snapLF s,
                startRightHip := snapRH s, startRightFoot := snapRF s,
                targetFrame := s.targetFrame + 1, timeAtStartOfFrame := t,
                animInProgress := false },
       [Ev.servoWrite (snapLH s) (snapLF s) (snapRH s) (snapRF s),
        Ev.notifyDone s.animCompleteStr]) := by
  have hgt2 : NumOfFrames (curFrames s) < (s.targetFrame : Int) + 1 := by
    push_cast at hgt
    omega
  have hneg : ¬ (s.animNumLoops < 0) := by omega
  have hngt : ¬ (s.animNumLoops > 1) := by omega
  simp [frameAdvance, hadv, hgt2, hneg, hngt, hf]

theorem loop_Animation_skip (s : SysState) (t : Int)
    (h : s.timeAtLastAnimUpdate + millisBetweenAnimUpdate > t) :
    loop_Animation s t = (s, []) := by
  rw [loop_Animation, if_pos h]

theorem loop_Animation_go (s : SysState) (t : Int)
    (h : ¬ (s.timeAtLastAnimUpdate + millisBetweenAnimUpdate > t)) :
    loop_Animation s t = animBody { s with timeAtLastAnimUpdate := t } t := by
  rw [loop_Animation, if_neg h]

theorem animBody_stop (s : SysState) (t : Int) (s1 : SysState) (e1 : List Ev)
    (hpe : startQueuedAnim s t = (s1, e1)) (h1 : s1.animInProgress = false) :
    animBody s t = (s1, e1) := by
  simp [animBody, hpe, h1]

theorem animBody_adv_stop (s : SysState) (t : Int) (s1 s2 : SysState) (e1 e2 : List Ev)
    (hpe : startQueuedAnim s t = (s1, e1)) (h1 : s1.animInProgress = true)
    (hae : frameAdvance s1 t = (s2, e2)) (h2 : s2.animInProgress = false) :
    animBody s t = (s2, e1 ++ e2) := by
  simp [animBody, hpe, h1, hae, h2]

theorem animBody_full (s : SysState) (t : Int) (s1 s2 : SysState) (e1 e2 : List Ev)
    (hpe : startQueuedAnim s t = (s1, e1)) (h1 : s1.animInProgress = true)
    (hae : frameAdvance s1 t = (s2, e2)) (h2 : s2.animInProgress = true) :
    animBody s t = ((tweenServos s2 t).1, e1 ++ e2 ++ (tweenServos s2 t).2) := by
  simp [animBody, hpe, h1, hae, h2]

/-! ## C5: queue overwrite -/

/-- C5: enqueuing twice before a promotion occurs leaves the queue slot
(indeed the whole state) exactly as enqueuing the second animation alone
would, so only the second animation is ever played and the first is
discarded silently, with no notification ever emitted for it: every
subsequent run behaves identically to one that never saw the first
enqueue. -/
theorem c5_queue_overwrite (s : SysState) (a1 : AnimRef) (f1 : Option AnimRef)
    (n1 : Int) (cs1 : Option (Char × Char)) (a2 : AnimRef) (f2 : Option AnimRef)
    (n2 : Int) (cs2 : Option (Char × Char)) :
    PlayAnimNumTimes (PlayAnimNumTimes s a1 f1 n1 cs1) a2 f2 n2 cs2 =
      PlayAnimNumTimes s a2 f2 n2 cs2 ∧
    ∀ ts : List Int,
      runTicks (PlayAnimNumTimes (PlayAnimNumTimes s a1 f1 n1 cs1) a2 f2 n2 cs2) ts =
        runTicks (PlayAnimNumTimes s a2 f2 n2 cs2) ts := by
  refine ⟨rfl, fun ts => rfl⟩

/-! ## C9: SetServos never mutates the animation being played -/

/-- C9: the scratch animation SetServos selects and mutates is never the
animation currently being played, so the data of the current animation is
unchanged by a SetServos call. -/
theorem c9_scratch_distinct (s : SysState) (tw lh lf rh rf : Int)
    (cs : Option (Char × Char)) :
    some (setServosTarget s) ≠ s.currAnim ∧
    ∀ r : AnimRef, s.currAnim = some r →
      animData (SetServos s tw lh lf rh rf cs).store r = animData s.store r := by
  constructor
  · unfold setServosTarget
    split
    · rename_i h
      exact fun hc => h hc.symm
    · rename_i h
      rw [not_not] at h
      rw [h]
      simp
  · intro r hr
    by_cases h1 : s.currAnim = some AnimRef.setServos1
    · have hr1 : r = AnimRef.setServos1 := by
        rw [h1] at hr
        exact (Option.some_injective _ hr).symm
      subst hr1
      simp [SetServos, setServosTarget, PlayAnim, PlayAnimNumTimes, h1, animData]
    · have htgt : setServosTarget { s with nextAnimCompleteStr :=
          match cs with
          | none => ('-', '-')
          | some c => c } = AnimRef.setServos1 := by
        simp [setServosTarget, h1]
      have hr1 : r ≠ AnimRef.setServos1 := by
        intro hh
        subst hh
        exact h1 hr
      cases r <;>
        simp [SetServos, setServosTarget, PlayAnim, PlayAnimNumTimes, h1, animData] at hr1 ⊢

/-! ## C10: stop-immediate while idle still notifies -/

/-- C10: if request_stop_immediate is invoked while no animation is
playing, the next tick's promotion step still emits an
interrupted-completion notification with whatever completion tag is left
in animCompleteStr (the tag of the most recently completed animation, or
"--" if none), before starting the queued standStraight animation. -/
theorem c10_idle_interrupt_notification (s : SysState) (cs : Option (Char × Char))
    (t : Int) (hplay : s.animInProgress = false)
    (ht : s.timeAtLastAnimUpdate + millisBetweenAnimUpdate ≤ t) :
    notifEvents (loop_Animation (StopAnimImmediate s cs) t).2 =
      [Ev.notifyInterrupted s.animCompleteStr] ∧
    (loop_Animation (StopAnimImmediate s cs) t).1.currAnim = some AnimRef.standStraight := by
  have hskip : ¬ (StopAnimImmediate s cs).timeAtLastAnimUpdate + millisBetweenAnimUpdate > t := by
    show ¬ s.timeAtLastAnimUpdate + millisBetweenAnimUpdate > t
    omega
  rw [loop_Animation_go _ _ hskip]
  have hpe := startQueuedAnim_interrupt
    { StopAnimImmediate s cs with timeAtLastAnimUpdate := t } t AnimRef.standStraight rfl rfl
  rw [animBody_full _ t _ _ _ _ hpe rfl
    (frameAdvance_hold _ t (by show ¬ (t - t > (300 : Int)); omega)) rfl]
  exact ⟨rfl, rfl⟩

/-- Witness for C10 at a concrete input: stop-immediate from the freshly
set-up idle state emits the stale "--" interrupted notification. -/
theorem c10_witness :
    notifEvents (loop_Animation (StopAnimImmediate setup_Animation (some ('S', 'I'))) 21).2 =
      [Ev.notifyInterrupted ('-', '-')] ∧
    (loop_Animation (StopAnimImmediate setup_Animation (some ('S', 'I'))) 21).1.currAnim =
      some AnimRef.standStraight :=
  c10_idle_interrupt_notification setup_Animation (some ('S', 'I')) 21 rfl (by decide)

/-! ## C6: zero-duration keyframes -/

/-- Counterexample to C6 as stated: a division by zero does occur in the
interpolation computation.  In the reachable run where `<SV,0,...>` makes
SetServos queue a scratch animation whose single keyframe has
duration 0, the promotion tick computes frameTimeFraction = 0 / (float) 0
(recorded as Ev.divByZero; in the sketch the result is NaN).  The rest of
the claim does hold on this run: the frame resolves on the very next tick
and the animation completes with its notification rather than stalling. -/
theorem c6_counterexample :
    Ev.divByZero ∈
      (runTicks (SetServos setup_Animation 0 0 0 0 0 (some ('S', 'V'))) [21]).2 ∧
    notifEvents
      (runTicks (SetServos setup_Animation 0 0 0 0 0 (some ('S', 'V'))) [21, 42]).2 =
      [Ev.notifyDone ('S', 'V')] := by
  constructor
  · decide
  · decide

/-- C6 amended: a keyframe with duration 0 resolves on the very next tick
after it becomes the target frame, and the animation does not stall; but
the tick on which a 0-duration keyframe becomes the target does divide by
zero in the interpolation computation (0 / (float) 0, i.e. NaN, whose
effect on the servo positions is overwritten when the frame resolves).
Part one: if the current target keyframe has duration 0, the next tick
resolves it (the frame timer is restarted at that tick) and playback
makes progress: the animation either continues, or has re-queued itself,
or finishes with its completion notification.  Part two: on the tick
where a queued animation whose first keyframe has duration 0 is promoted
and becomes the target, the division by zero occurs. -/
theorem c6_amended_zero_duration :
    (∀ (s : SysState) (t : Int),
      s.animInProgress = true →
      s.currAnim.isSome = true →
      s.nextAnim = none →
      s.interruptInProgressAnim = false →
      s.timeAtStartOfFrame ≤ s.timeAtLastAnimUpdate →
      s.timeAtLastAnimUpdate + millisBetweenAnimUpdate ≤ t →
      (targetKF s).tween = 0 →
      (loop_Animation s t).1.timeAtStartOfFrame = t ∧
      ((loop_Animation s t).1.animInProgress = true ∨
        (loop_Animation s t).1.nextAnim ≠ none ∨
        notifEvents (loop_Animation s t).2 ≠ [])) ∧
    (∀ (s : SysState) (t : Int) (α : AnimRef),
      s.nextAnim = some α →
      s.animInProgress = false →
      s.interruptInProgressAnim = false →
      s.timeAtLastAnimUpdate + millisBetweenAnimUpdate ≤ t →
      ((animData s.store α).getD 1 FrameD).tween = 0 →
      Ev.divByZero ∈ (loop_Animation s t).2) := by
  constructor
  · intro s t hplay hcur hnext hflag hfs ht htw
    have hskip : ¬ s.timeAtLastAnimUpdate + millisBetweenAnimUpdate > t := by omega
    rw [loop_Animation_go _ _ hskip]
    have hpe : startQueuedAnim { s with timeAtLastAnimUpdate := t } t =
        ({ s with timeAtLastAnimUpdate := t }, []) :=
      startQueuedAnim_none _ t hnext
    have hadv : t - s.timeAtStartOfFrame > (targetKF s).tween := by
      rw [htw]
      simp only [millisBetweenAnimUpdate] at ht
      omega
    have hcurne : s.currAnim ≠ none := Option.isSome_iff_ne_none.mp hcur
    by_cases hend : ((s.targetFrame + 1 : Nat) : Int) > NumOfFrames (curFrames s)
    · by_cases hL0 : s.animNumLoops < 0
      · have hae := frameAdvance_requeue_inf { s with timeAtLastAnimUpdate := t } t hadv hend hL0 hnext
        rw [animBody_adv_stop _ t _ _ _ _ hpe hplay hae rfl]
        exact ⟨rfl, Or.inr (Or.inl hcurne)⟩
      · by_cases hL1 : s.animNumLoops > 1
        · have hae := frameAdvance_requeue { s with timeAtLastAnimUpdate := t } t hadv hend hL1 hnext
          rw [animBody_adv_stop _ t _ _ _ _ hpe hplay hae rfl]
          exact ⟨rfl, Or.inr (Or.inl hcurne)⟩
        · have hL0a : 0 ≤ s.animNumLoops := by omega
          have hL1a : s.animNumLoops ≤ 1 := by omega
          by_cases hfin : s.finishAnim = none
          · have hae := frameAdvance_done { s with timeAtLastAnimUpdate := t } t hadv hend hL0a hL1a hfin
            rw [animBody_adv_stop _ t _ _ _ _ hpe hplay hae rfl]
            refine ⟨rfl, Or.inr (Or.inr ?_)⟩
            simp [notifEvents]
          · obtain ⟨φ, hf⟩ := Option.ne_none_iff_exists'.mp hfin
            have hae := frameAdvance_to_finish { s with timeAtLastAnimUpdate := t } t φ hadv hend hL0a hL1a hf
            rw [animBody_full _ t _ _ _ _ hpe hplay hae rfl]
            exact ⟨rfl, Or.inl rfl⟩
    · have hae := frameAdvance_mid { s with timeAtLastAnimUpdate := t } t hadv (not_lt.mp hend)
      rw [animBody_full _ t _ _ _ _ hpe hplay hae hplay]
      exact ⟨rfl, Or.inl hplay⟩
  · intro s t α hnext hplay hflag ht htw
    have hskip : ¬ s.timeAtLastAnimUpdate + millisBetweenAnimUpdate > t := by omega
    rw [loop_Animation_go _ _ hskip]
    have hpe := startQueuedAnim_promote { s with timeAtLastAnimUpdate := t } t α hnext hplay hflag
    have hold : ¬ (t - t > ((animData s.store α).getD 1 FrameD).tween) := by
      rw [htw]
      omega
    rw [animBody_full _ t _ _ _ _ hpe rfl (frameAdvance_hold _ t hold) rfl]
    simp only [tweenServos]
    have htkf : (targetKF
        ({ s with timeAtLastAnimUpdate := t, currAnim := some α,
                  finishAnim := s.nextFinishAnim,
                  animCompleteStr := s.nextAnimCompleteStr,
                  nextAnim := none, nextFinishAnim := none,
                  nextAnimCompleteStr := ('-', '-'),
                  animNumLoops := s.nextAnimNumLoops,
                  timeAtStartOfFrame := t, targetFrame := 1,
                  animInProgress := true } : SysState)).tween = 0 := htw
    rw [htkf]
    simp

/-- Witness for C6 amended, at concrete inputs: the state reached after
the SetServos(0, ...) promotion tick is mid-playback of a 0-duration
keyframe and resolves at the next tick (time 42); and the promotion tick
itself (time 21) divides by zero. -/
theorem c6_witness :
    ((loop_Animation
        (runTicks (SetServos setup_Animation 0 0 0 0 0 (some ('S', 'V'))) [21]).1 42).1.timeAtStartOfFrame = 42 ∧
      ((loop_Animation
          (runTicks (SetServos setup_Animation 0 0 0 0 0 (some ('S', 'V'))) [21]).1 42).1.animInProgress = true ∨
        (loop_Animation
          (runTicks (SetServos setup_Animation 0 0 0 0 0 (some ('S', 'V'))) [21]).1 42).1.nextAnim ≠ none ∨
        notifEvents (loop_Animation
          (runTicks (SetServos setup_Animation 0 0 0 0 0 (some ('S', 'V'))) [21]).1 42).2 ≠ [])) ∧
    Ev.divByZero ∈
      (loop_Animation (SetServos setup_Animation 0 0 0 0 0 (some ('S', 'V'))) 21).2 :=
  ⟨c6_amended_zero_duration.1
      (runTicks (SetServos setup_Animation 0 0 0 0 0 (some ('S', 'V'))) [21]).1 42
      (by decide) (by decide) (by decide) (by decide) (by decide) (by decide) (by decide),
    c6_amended_zero_duration.2
      (SetServos setup_Animation 0 0 0 0 0 (some ('S', 'V'))) 21 AnimRef.setServos1
      (by decide) (by decide) (by decide) (by decide) (by decide)⟩

/-! ## Run lemmas and the no-interrupt invariant -/

theorem runTicks_cons (s : SysState) (t : Int) (ts : List Int) :
    runTicks s (t :: ts) =
      ((runTicks (loop_Animation s t).1 ts).1,
        (loop_Animation s t).2 ++ (runTicks (loop_Animation s t).1 ts).2) := rfl

theorem runTicks_append (s : SysState) (ts us : List Int) :
    runTicks s (ts ++ us) =
      ((runTicks (runTicks s ts).1 us).1,
        (runTicks s ts).2 ++ (runTicks (runTicks s ts).1 us).2) := by
  induction ts generalizing s with
  | nil => rfl
  | cons t ts ih =>
      simp only [List.cons_append, runTicks_cons, ih, List.append_assoc]

theorem interruptNotifs_append (a b : List Ev) :
    interruptNotifs (a ++ b) = interruptNotifs a ++ interruptNotifs b := by
  simp [interruptNotifs]

theorem notifEvents_append (a b : List Ev) :
    notifEvents (a ++ b) = notifEvents a ++ notifEvents b := by
  simp [notifEvents]

theorem startQueuedAnim_no_interrupt (s : SysState) (t : Int)
    (h : s.interruptInProgressAnim = false) :
    interruptNotifs (startQueuedAnim s t).2 = [] ∧
    (startQueuedAnim s t).1.interruptInProgressAnim = false := by
  rw [startQueuedAnim]
  split_ifs <;> simp_all [interruptNotifs]

theorem frameAdvance_flag_events (s : SysState) (t : Int) :
    interruptNotifs (frameAdvance s t).2 = [] ∧
    (frameAdvance s t).1.interruptInProgressAnim = s.interruptInProgressAnim := by
  simp only [frameAdvance]
  split_ifs <;>
    first
      | (split <;> simp [interruptNotifs])
      | simp [interruptNotifs]

theorem tweenServos_flag_events (s : SysState) (t : Int) :
    interruptNotifs (tweenServos s t).2 = [] ∧
    (tweenServos s t).1.interruptInProgressAnim = s.interruptInProgressAnim := by
  rw [tweenServos]
  split_ifs <;> simp [interruptNotifs]

theorem animBody_no_interrupt (s : SysState) (t : Int)
    (h : s.interruptInProgressAnim = false) :
    interruptNotifs (animBody s t).2 = [] ∧
    (animBody s t).1.interruptInProgressAnim = false := by
  obtain ⟨hq1, hq2⟩ := startQueuedAnim_no_interrupt s t h
  rw [animBody]
  rcases hq : startQueuedAnim s t with ⟨s1, e1⟩
  rw [hq] at hq1 hq2
  simp only at hq1 hq2 ⊢
  by_cases h1 : s1.animInProgress = false
  · simp [h1, hq1, hq2]
  · simp only [h1, if_false, if_neg h1]
    obtain ⟨ha1, ha2⟩ := frameAdvance_flag_events s1 t
    rcases ha : frameAdvance s1 t with ⟨s2, e2⟩
    rw [ha] at ha1 ha2
    simp only at ha1 ha2
    rw [hq2] at ha2
    by_cases h2 : s2.animInProgress = false
    · simp [h2, interruptNotifs_append, hq1, ha1, ha2]
    · simp only [h2, if_false, if_neg h2]
      obtain ⟨ht1, ht2⟩ := tweenServos_flag_events s2 t
      rw [ha2] at ht2
      simp [interruptNotifs_append, hq1, ha1, ht1, ht2]

/-- While the interrupt flag is down and stays down, a tick never emits an
interrupted-completion notification. -/
theorem loop_Animation_no_interrupt (s : SysState) (t : Int)
    (h : s.interruptInProgressAnim = false) :
    interruptNotifs (loop_Animation s t).2 = [] ∧
    (loop_Animation s t).1.interruptInProgressAnim = false := by
  by_cases hs : s.timeAtLastAnimUpdate + millisBetweenAnimUpdate > t
  · rw [loop_Animation_skip _ _ hs]
    exact ⟨rfl, h⟩
  · rw [loop_Animation_go _ _ hs]
    exact animBody_no_interrupt _ t h

theorem runTicks_no_interrupt (s : SysState) (ts : List Int)
    (h : s.interruptInProgressAnim = false) :
    interruptNotifs (runTicks s ts).2 = [] := by
  induction ts generalizing s with
  | nil => rfl
  | cons t ts ih =>
      obtain ⟨h1, h2⟩ := loop_Animation_no_interrupt s t h
      rw [runTicks_cons, interruptNotifs_append, h1, ih _ h2]
      rfl

/-! ## C3: stop-immediate mid-keyframe -/

/-- C3: if request_stop_immediate is called while an animation is playing,
then on the next tick (a) exactly one notification is emitted, the
interrupted completion of the outgoing animation with its tag,
(b) playback of the queued stop animation starts its interpolation from
the current joint positions (they become the new interpolation origin,
not the keyframe-start positions), and (c) with no further commands no
interrupted notification is ever emitted again (no duplicate for the
interrupted animation). -/
theorem c3_interrupt_notification (s : SysState) (cs : Option (Char × Char)) (t : Int)
    (ts : List Int)
    (hplay : s.animInProgress = true)
    (hflag : s.interruptInProgressAnim = false)
    (ht : s.timeAtLastAnimUpdate + millisBetweenAnimUpdate ≤ t) :
    notifEvents (loop_Animation (StopAnimImmediate s cs) t).2 =
      [Ev.notifyInterrupted s.animCompleteStr] ∧
    ((loop_Animation (StopAnimImmediate s cs) t).1.startLeftHip = s.currLeftHip ∧
     (loop_Animation (StopAnimImmediate s cs) t).1.startLeftFoot = s.currLeftFoot ∧
     (loop_Animation (StopAnimImmediate s cs) t).1.startRightHip = s.currRightHip ∧
     (loop_Animation (StopAnimImmediate s cs) t).1.startRightFoot = s.currRightFoot) ∧
    interruptNotifs (runTicks (loop_Animation (StopAnimImmediate s cs) t).1 ts).2 = [] := by
  have hskip : ¬ (StopAnimImmediate s cs).timeAtLastAnimUpdate + millisBetweenAnimUpdate > t := by
    show ¬ s.timeAtLastAnimUpdate + millisBetweenAnimUpdate > t
    omega
  rw [loop_Animation_go _ _ hskip]
  have hpe := startQueuedAnim_interrupt
    { StopAnimImmediate s cs with timeAtLastAnimUpdate := t } t AnimRef.standStraight rfl rfl
  rw [animBody_full _ t _ _ _ _ hpe rfl
    (frameAdvance_hold _ t (by show ¬ (t - t > (300 : Int)); omega)) rfl]
  exact ⟨rfl, ⟨rfl, rfl, rfl, rfl⟩, runTicks_no_interrupt _ ts rfl⟩

/-- Witness for C3 at a concrete input: walkForward is playing (promoted
at time 21); stop-immediate then a tick at time 42 emits exactly the
interrupted notification `<FW,-1>`, restarts interpolation from the
current positions, and two further ticks emit no interrupted
notification. -/
theorem c3_witness :
    notifEvents (loop_Animation (StopAnimImmediate
      (runTicks (PlayAnimNumTimes setup_Animation AnimRef.walkForward (some AnimRef.walkEnd) 2
        (some ('F', 'W'))) [21]).1 (some ('S', 'I'))) 42).2 =
      [Ev.notifyInterrupted ('F', 'W')] ∧
    ((loop_Animation (StopAnimImmediate
        (runTicks (PlayAnimNumTimes setup_Animation AnimRef.walkForward (some AnimRef.walkEnd) 2
          (some ('F', 'W'))) [21]).1 (some ('S', 'I'))) 42).1.startLeftHip =
      (runTicks (PlayAnimNumTimes setup_Animation AnimRef.walkForward (some AnimRef.walkEnd) 2
        (some ('F', 'W'))) [21]).1.currLeftHip ∧
     (loop_Animation (StopAnimImmediate
        (runTicks (PlayAnimNumTimes setup_Animation AnimRef.walkForward (some AnimRef.walkEnd) 2
          (some ('F', 'W'))) [21]).1 (some ('S', 'I'))) 42).1.startLeftFoot =
      (runTicks (PlayAnimNumTimes setup_Animation AnimRef.walkForward (some AnimRef.walkEnd) 2
        (some ('F', 'W'))) [21]).1.currLeftFoot ∧
     (loop_Animation (StopAnimImmediate
        (runTicks (PlayAnimNumTimes setup_Animation AnimRef.walkForward (some AnimRef.walkEnd) 2
          (some ('F', 'W'))) [21]).1 (some ('S', 'I'))) 42).1.startRightHip =
      (runTicks (PlayAnimNumTimes setup_Animation AnimRef.walkForward (some AnimRef.walkEnd) 2
        (some ('F', 'W'))) [21]).1.currRightHip ∧
     (loop_Animation (StopAnimImmediate
        (runTicks (PlayAnimNumTimes setup_Animation AnimRef.walkForward (some AnimRef.walkEnd) 2
          (some ('F', 'W'))) [21]).1 (some ('S', 'I'))) 42).1.startRightFoot =
      (runTicks (PlayAnimNumTimes setup_Animation AnimRef.walkForward (some AnimRef.walkEnd) 2
        (some ('F', 'W'))) [21]).1.currRightFoot) ∧
    interruptNotifs (runTicks (loop_Animation (StopAnimImmediate
      (runTicks (PlayAnimNumTimes setup_Animation AnimRef.walkForward (some AnimRef.walkEnd) 2
        (some ('F', 'W'))) [21]).1 (some ('S', 'I'))) 42).1 [63, 84]).2 = [] :=
  c3_interrupt_notification
    (runTicks (PlayAnimNumTimes setup_Animation AnimRef.walkForward (some AnimRef.walkEnd) 2
      (some ('F', 'W'))) [21]).1 (some ('S', 'I')) 42 [63, 84]
    (by decide) (by decide) (by decide)

/-! ## C8: absent joints -/

/-- After a tick whose frame-advance fires, the interpolation origin
(startXxx) holds the resolved keyframe values: the keyframe's value for
each present joint, the previous current position for each absent one. -/
theorem loop_Animation_snap_start (s : SysState) (t : Int)
    (hplay : s.animInProgress = true)
    (hnext : s.nextAnim = none)
    (hflag : s.interruptInProgressAnim = false)
    (ht : s.timeAtLastAnimUpdate + millisBetweenAnimUpdate ≤ t)
    (hadv : t - s.timeAtStartOfFrame > (targetKF s).tween) :
    (loop_Animation s t).1.startLeftHip = snapLH s ∧
    (loop_Animation s t).1.startLeftFoot = snapLF s ∧
    (loop_Animation s t).1.startRightHip = snapRH s ∧
    (loop_Animation s t).1.startRightFoot = snapRF s := by
  have hskip : ¬ s.timeAtLastAnimUpdate + millisBetweenAnimUpdate > t := by omega
  rw [loop_Animation_go _ _ hskip]
  have hpe := startQueuedAnim_none { s with timeAtLastAnimUpdate := t } t hnext
  by_cases hend : ((s.targetFrame + 1 : Nat) : Int) > NumOfFrames (curFrames s)
  · by_cases hL0 : s.animNumLoops < 0
    · rw [animBody_adv_stop _ t _ _ _ _ hpe hplay
        (frameAdvance_requeue_inf _ t hadv hend hL0 hnext) rfl]
      exact ⟨rfl, rfl, rfl, rfl⟩
    · by_cases hL1 : s.animNumLoops > 1
      · rw [animBody_adv_stop _ t _ _ _ _ hpe hplay
          (frameAdvance_requeue _ t hadv hend hL1 hnext) rfl]
        exact ⟨rfl, rfl, rfl, rfl⟩
      · have hL0a : 0 ≤ s.animNumLoops := by omega
        have hL1a : s.animNumLoops ≤ 1 := by omega
        by_cases hfin : s.finishAnim = none
        · rw [animBody_adv_stop _ t _ _ _ _ hpe hplay
            (frameAdvance_done _ t hadv hend hL0a hL1a hfin) rfl]
          exact ⟨rfl, rfl, rfl, rfl⟩
        · obtain ⟨φ, hf⟩ := Option.ne_none_iff_exists'.mp hfin
          rw [animBody_full _ t _ _ _ _ hpe hplay
            (frameAdvance_to_finish _ t φ hadv hend hL0a hL1a hf) rfl]
          exact ⟨rfl, rfl, rfl, rfl⟩
  · rw [animBody_full _ t _ _ _ _ hpe hplay
      (frameAdvance_mid _ t hadv (not_lt.mp hend)) hplay]
    exact ⟨rfl, rfl, rfl, rfl⟩

/-- C8: a joint whose value in the target keyframe is absent (negative
sentinel) is left unchanged both by the per-tick interpolation and by the
frame-boundary snap, while a joint with a present value interpolates
toward, and resolves to, the keyframe's value.  Part one covers a tick
within the keyframe (no boundary crossing): absent joints keep both their
current position and their interpolation origin, present joints take the
linear interpolation value.  Part two covers a tick that crosses the
boundary: the resolved origin of an absent joint is its previous current
position, that of a present joint is the keyframe's value. -/
theorem c8_absent_joint (s : SysState) (t : Int)
    (hplay : s.animInProgress = true)
    (hnext : s.nextAnim = none)
    (hflag : s.interruptInProgressAnim = false)
    (ht : s.timeAtLastAnimUpdate + millisBetweenAnimUpdate ≤ t) :
    ((t - s.timeAtStartOfFrame ≤ (targetKF s).tween) →
      (((targetKF s).lh < 0 →
          (loop_Animation s t).1.currLeftHip = s.currLeftHip ∧
          (loop_Animation s t).1.startLeftHip = s.startLeftHip) ∧
       (0 ≤ (targetKF s).lh →
          (loop_Animation s t).1.currLeftHip =
            lerpJoint s.startLeftHip (targetKF s).lh (t - s.timeAtStartOfFrame) (targetKF s).tween) ∧
       ((targetKF s).lf < 0 →
          (loop_Animation s t).1.currLeftFoot = s.currLeftFoot ∧
          (loop_Animation s t).1.startLeftFoot = s.startLeftFoot) ∧
       (0 ≤ (targetKF s).lf →
          (loop_Animation s t).1.currLeftFoot =
            lerpJoint s.startLeftFoot (targetKF s).lf (t - s.timeAtStartOfFrame) (targetKF s).tween) ∧
       ((targetKF s).rh < 0 →
          (loop_Animation s t).1.currRightHip = s.currRightHip ∧
          (loop_Animation s t).1.startRightHip = s.startRightHip) ∧
       (0 ≤ (targetKF s).rh →
          (loop_Animation s t).1.currRightHip =
            lerpJoint s.startRightHip (targetKF s).rh (t - s.timeAtStartOfFrame) (targetKF s).tween) ∧
       ((targetKF s).rf < 0 →
          (loop_Animation s t).1.currRightFoot = s.currRightFoot ∧
          (loop_Animation s t).1.startRightFoot = s.startRightFoot) ∧
       (0 ≤ (targetKF s).rf →
          (loop_Animation s t).1.currRightFoot =
            lerpJoint s.startRightFoot (targetKF s).rf (t - s.timeAtStartOfFrame) (targetKF s).tween))) ∧
    ((t - s.timeAtStartOfFrame > (targetKF s).tween) →
      (((targetKF s).lh < 0 → (loop_Animation s t).1.startLeftHip = s.currLeftHip) ∧
       (0 ≤ (targetKF s).lh → (loop_Animation s t).1.startLeftHip = (targetKF s).lh) ∧
       ((targetKF s).lf < 0 → (loop_Animation s t).1.startLeftFoot = s.currLeftFoot) ∧
       (0 ≤ (targetKF s).lf → (loop_Animation s t).1.startLeftFoot = (targetKF s).lf) ∧
       ((targetKF s).rh < 0 → (loop_Animation s t).1.startRightHip = s.currRightHip) ∧
       (0 ≤ (targetKF s).rh → (loop_Animation s t).1.startRightHip = (targetKF s).rh) ∧
       ((targetKF s).rf < 0 → (loop_Animation s t).1.startRightFoot = s.currRightFoot) ∧
       (0 ≤ (targetKF s).rf → (loop_Animation s t).1.startRightFoot = (targetKF s).rf))) := by
  have hskip : ¬ s.timeAtLastAnimUpdate + millisBetweenAnimUpdate > t := by omega
  constructor
  · intro hle
    rw [loop_Animation_go _ _ hskip]
    have hpe := startQueuedAnim_none { s with timeAtLastAnimUpdate := t } t hnext
    rw [animBody_full _ t _ _ _ _ hpe hplay
      (frameAdvance_hold _ t (not_lt.mpr hle)) hplay]
    refine ⟨?_, ?_, ?_, ?_, ?_, ?_, ?_, ?_⟩
    · intro habs
      constructor
      · show tweenLH s t = s.currLeftHip
        rw [tweenLH, if_neg (not_le.mpr habs)]
      · rfl
    · intro hpos
      show tweenLH s t = _
      rw [tweenLH, if_pos hpos]
    · intro habs
      constructor
      · show tweenLF s t = s.currLeftFoot
        rw [tweenLF, if_neg (not_le.mpr habs)]
      · rfl
    · intro hpos
      show tweenLF s t = _
      rw [tweenLF, if_pos hpos]
    · intro habs
      constructor
      · show tweenRH s t = s.currRightHip
        rw [tweenRH, if_neg (not_le.mpr habs)]
      · rfl
    · intro hpos
      show tweenRH s t = _
      rw [tweenRH, if_pos hpos]
    · intro habs
      constructor
      · show tweenRF s t = s.currRightFoot
        rw [tweenRF, if_neg (not_le.mpr habs)]
      · rfl
    · intro hpos
      show tweenRF s t = _
      rw [tweenRF, if_pos hpos]
  · intro hadv
    obtain ⟨h1, h2, h3, h4⟩ := loop_Animation_snap_start s t hplay hnext hflag ht hadv
    refine ⟨?_, ?_, ?_, ?_, ?_, ?_, ?_, ?_⟩
    · intro habs
      rw [h1, snapLH, if_neg (not_le.mpr habs)]
    · intro hpos
      rw [h1, snapLH, if_pos hpos]
    · intro habs
      rw [h2, snapLF, if_neg (not_le.mpr habs)]
    · intro hpos
      rw [h2, snapLF, if_pos hpos]
    · intro habs
      rw [h3, snapRH, if_neg (not_le.mpr habs)]
    · intro hpos
      rw [h3, snapRH, if_pos hpos]
    · intro habs
      rw [h4, snapRF, if_neg (not_le.mpr habs)]
    · intro hpos
      rw [h4, snapRF, if_pos hpos]

/-- Witness for C8 at a concrete input: SetServos(500, -2000, 0, 0, 0)
writes a keyframe whose left-hip entry is negative (absent); after the
promotion tick at time 21, the tick at time 42 leaves the left hip where
it was while the left foot takes the interpolated value, and the boundary
tick at time 522 resolves the left hip to its held position. -/
theorem c8_witness :
    ((loop_Animation
        (runTicks (SetServos setup_Animation 500 (-2000) 0 0 0 (some ('S', 'V'))) [21]).1
        42).1.currLeftHip =
      (runTicks (SetServos setup_Animation 500 (-2000) 0 0 0 (some ('S', 'V'))) [21]).1.currLeftHip ∧
     (loop_Animation
        (runTicks (SetServos setup_Animation 500 (-2000) 0 0 0 (some ('S', 'V'))) [21]).1
        42).1.startLeftHip =
      (runTicks (SetServos setup_Animation 500 (-2000) 0 0 0 (some ('S', 'V'))) [21]).1.startLeftHip) ∧
    (loop_Animation
        (runTicks (SetServos setup_Animation 500 (-2000) 0 0 0 (some ('S', 'V'))) [21]).1
        42).1.currLeftFoot =
      lerpJoint
        (runTicks (SetServos setup_Animation 500 (-2000) 0 0 0 (some ('S', 'V'))) [21]).1.startLeftFoot
        1410 21 500 ∧
    (loop_Animation
        (runTicks (SetServos setup_Animation 500 (-2000) 0 0 0 (some ('S', 'V'))) [21]).1
        522).1.startLeftHip =
      (runTicks (SetServos setup_Animation 500 (-2000) 0 0 0 (some ('S', 'V'))) [21]).1.currLeftHip :=
  ⟨((c8_absent_joint
      (runTicks (SetServos setup_Animation 500 (-2000) 0 0 0 (some ('S', 'V'))) [21]).1 42
      (by decide) (by decide) (by decide) (by decide)).1 (by decide)).1 (by decide),
   ((c8_absent_joint
      (runTicks (SetServos setup_Animation 500 (-2000) 0 0 0 (some ('S', 'V'))) [21]).1 42
      (by decide) (by decide) (by decide) (by decide)).1 (by decide)).2.2.2.1 (by decide),
   ((c8_absent_joint
      (runTicks (SetServos setup_Animation 500 (-2000) 0 0 0 (some ('S', 'V'))) [21]).1 522
      (by decide) (by decide) (by decide) (by decide)).2 (by decide)).1 (by decide)⟩

/-! ## Parser run lemmas -/

theorem prun_cons (s : PState) (c : Char) (cs : List Char) :
    prun s (c :: cs) =
      ((prun (pstep s c).1 cs).1, (pstep s c).2.toList ++ (prun (pstep s c).1 cs).2) := rfl

theorem prun_append (s : PState) (xs ys : List Char) :
    prun s (xs ++ ys) =
      ((prun (prun s xs).1 ys).1, (prun s xs).2 ++ (prun (prun s xs).1 ys).2) := by
  induction xs generalizing s with
  | nil => rfl
  | cons c cs ih =>
      simp only [List.cons_append, prun_cons, ih, List.append_assoc]

theorem pstep_waiting_skip (s : PState) (c : Char) (hm : s.mode = .waiting)
    (hc : ¬ c = '<') : pstep s c = (s, none) := by
  simp [pstep, hm, hc]

theorem prun_noise (s : PState) (ns : List Char) (hm : s.mode = .waiting)
    (h : '<' ∉ ns) : prun s ns = (s, []) := by
  induction ns with
  | nil => rfl
  | cons c cs ih =>
      have hc : ¬ c = '<' := by
        intro hh
        exact h (hh ▸ List.mem_cons_self c cs)
      rw [prun_cons, pstep_waiting_skip s c hm hc]
      have hcs : '<' ∉ cs := fun hh => h (List.mem_cons_of_mem c hh)
      simp [ih hcs]

/-! ## Decimal digit lemmas -/

theorem digitChar_bounds (d : Nat) (h : d < 10) :
    '0' ≤ digitChar d ∧ digitChar d ≤ '9' := by
  interval_cases d <;> decide

theorem digitVal_digitChar (d : Nat) (h : d < 10) :
    digitVal (digitChar d) = (d : Int) := by
  interval_cases d <;> decide

theorem natDigitsAux_digits (fuel n : Nat) (hf : n < fuel) :
    ∀ c ∈ natDigitsAux fuel n, '0' ≤ c ∧ c ≤ '9' := by
  induction fuel generalizing n with
  | zero => omega
  | succ fuel ih =>
      intro c hc
      rw [natDigitsAux] at hc
      by_cases h10 : n < 10
      · rw [if_pos h10] at hc
        simp at hc
        exact hc ▸ digitChar_bounds n h10
      · rw [if_neg h10] at hc
        rcases List.mem_append.mp hc with hc1 | hc2
        · have hrec : n / 10 < fuel := by
            have := Nat.div_lt_self (show 0 < n by omega) (show 1 < 10 by omega)
            omega
          exact ih (n / 10) hrec c hc1
        · simp at hc2
          exact hc2 ▸ digitChar_bounds (n % 10) (Nat.mod_lt n (by omega))

theorem natDigitsAux_val (fuel n : Nat) (hf : n < fuel) :
    digitsVal (natDigitsAux fuel n) = (n : Int) := by
  induction fuel generalizing n with
  | zero => omega
  | succ fuel ih =>
      rw [natDigitsAux]
      by_cases h10 : n < 10
      · rw [if_pos h10]
        show 0 * 10 + digitVal (digitChar n) = (n : Int)
        rw [digitVal_digitChar n h10]
        ring
      · rw [if_neg h10]
        have hrec : n / 10 < fuel := by
          have := Nat.div_lt_self (show 0 < n by omega) (show 1 < 10 by omega)
          omega
        show List.foldl _ 0 (_ ++ [_]) = (n : Int)
        rw [List.foldl_append]
        have hv := ih (n / 10) hrec
        rw [digitsVal] at hv
        rw [hv]
        show (n / 10 : Nat) * 10 + digitVal (digitChar (n % 10)) = (n : Int)
        rw [digitVal_digitChar (n % 10) (Nat.mod_lt n (by omega))]
        have := Nat.div_add_mod n 10
        push_cast
        omega

theorem natDigitsAux_length (fuel : Nat) :
    ∀ (k n : Nat), n < fuel → n < 10 ^ k → 1 ≤ k →
      (natDigitsAux fuel n).length ≤ k := by
  induction fuel with
  | zero => omega
  | succ fuel ih =>
      intro k n hf hn hk
      rw [natDigitsAux]
      by_cases h10 : n < 10
      · rw [if_pos h10]
        simpa using hk
      · rw [if_neg h10]
        rcases k with - | k1
        · omega
        · have hk1 : 1 ≤ k1 := by
            rcases Nat.eq_zero_or_pos k1 with h0 | h1
            · subst h0
              simp at hn
              omega
            · exact h1
          have hrec : n / 10 < fuel := by
            have := Nat.div_lt_self (show 0 < n by omega) (show 1 < 10 by omega)
            omega
          have hdiv : n / 10 < 10 ^ k1 := by
            rw [Nat.div_lt_iff_lt_mul (by omega)]
            calc n < 10 ^ (k1 + 1) := hn
            _ = 10 ^ k1 * 10 := by ring
          have := ih k1 (n / 10) hrec hdiv hk1
          simp only [List.length_append, List.length_cons, List.length_nil]
          omega

theorem natDigits_digits (n : Nat) : ∀ c ∈ natDigits n, '0' ≤ c ∧ c ≤ '9' :=
  natDigitsAux_digits (n + 1) n (by omega)

theorem digitsVal_natDigits (n : Nat) : digitsVal (natDigits n) = (n : Int) :=
  natDigitsAux_val (n + 1) n (by omega)

theorem natDigits_length (k n : Nat) (hn : n < 10 ^ k) (hk : 1 ≤ k) :
    (natDigits n).length ≤ k :=
  natDigitsAux_length (n + 1) k n (by omega) hn hk

theorem natDigits_length_pos (n : Nat) : 1 ≤ (natDigits n).length := by
  rw [natDigits, natDigitsAux]
  split <;> simp

/-! ## Consuming one parameter -/

theorem pstep_digit (s : PState) (k : Fin 5) (c : Char)
    (hm : s.mode = .param k) (h0 : '0' ≤ c) (h9 : c ≤ '9')
    (hidx : s.paramIndex < MAX_PARAM_LENGTH) :
    pstep s c =
      ({ s with pvals := Function.update s.pvals k (s.pvals k * 10 + digitVal c),
                paramIndex := s.paramIndex + 1 }, none) := by
  have hc1 : ¬ c = ',' := by
    rintro rfl
    revert h0
    decide
  have hc2 : ¬ c = '>' := by
    rintro rfl
    revert h9
    decide
  have hc3 : ¬ c = '-' := by
    rintro rfl
    revert h0
    decide
  have hc4 : ¬ (MAX_PARAM_LENGTH ≤ s.paramIndex ∨ c < '0' ∨ '9' < c) := by
    intro hh
    rcases hh with h | h | h
    · exact absurd hidx (not_lt.mpr h)
    · exact absurd h (not_lt.mpr h0)
    · exact absurd h (not_lt.mpr h9)
  simp [pstep, hm, hc1, hc2, hc3, hc4]

theorem pstep_minus (s : PState) (k : Fin 5)
    (hm : s.mode = .param k) (hidx : s.paramIndex = 0) :
    pstep s '-' = ({ s with neg := true, paramIndex := s.paramIndex + 1 }, none) := by
  simp [pstep, hm, hidx]

theorem prun_digits (ds : List Char) : ∀ (s : PState) (k : Fin 5),
    s.mode = .param k →
    (∀ c ∈ ds, '0' ≤ c ∧ c ≤ '9') →
    s.paramIndex + ds.length ≤ MAX_PARAM_LENGTH →
    prun s ds =
      ({ s with pvals := Function.update s.pvals k
                  (ds.foldl (fun v c => v * 10 + digitVal c) (s.pvals k)),
                paramIndex := s.paramIndex + ds.length }, []) := by
  induction ds with
  | nil =>
      intro s k hm _ _
      simp [prun, Function.update_eq_self]
  | cons c cs ih =>
      intro s k hm hds hlen
      have hcb := hds c (List.mem_cons_self c cs)
      have hidx : s.paramIndex < MAX_PARAM_LENGTH := by
        simp only [List.length_cons] at hlen
        omega
      rw [prun_cons, pstep_digit s k c hm hcb.1 hcb.2 hidx]
      dsimp only
      rw [ih _ k (by exact hm) (fun d hd => hds d (List.mem_cons_of_mem c hd))
        (by simp only [List.length_cons] at hlen ⊢; omega)]
      have harith : s.paramIndex + 1 + cs.length = s.paramIndex + (c :: cs).length := by
        simp only [List.length_cons]
        omega
      simp [Function.update_idem, Function.update_same, harith]

theorem prun_paramTok (s : PState) (k : Fin 5) (p : ParamTok)
    (hm : s.mode = .param k) (hidx : s.paramIndex = 0) (hneg : s.neg = false)
    (hz : s.pvals k = 0) (hwf : p.wf) :
    prun s p.chars =
      ({ s with pvals := Function.update s.pvals k (digitsVal p.digits),
                paramIndex := p.digits.length + (if p.negS then 1 else 0),
                neg := p.negS }, []) := by
  obtain ⟨hd, hl1, hl2⟩ := hwf
  cases hp : p.negS
  · rw [show p.chars = p.digits by rw [ParamTok.chars, hp]; rfl]
    rw [prun_digits p.digits s k hm hd (by rw [hidx]; rw [hp] at hl2; simpa using hl2)]
    rw [hz, hidx, hp] at *
    simp [digitsVal, hneg]
  · rw [show p.chars = '-' :: p.digits by rw [ParamTok.chars, hp]; rfl]
    rw [prun_cons, pstep_minus s k hm hidx]
    dsimp only
    rw [prun_digits p.digits _ k (by exact hm) hd
      (by simp only [hidx]; rw [hp] at hl2; simp at hl2; omega)]
    rw [hz, hidx, hp] at *
    simp [digitsVal]
    omega

/-! ## Consuming separators and whole commands -/

theorem pstep_comma_param (s : PState) (k : Fin 5) (hm : s.mode = .param k)
    (hk : (k : Nat) < 4) :
    pstep s ',' =
      ({ applySign k s with mode := .param ⟨(k : Nat) + 1, by omega⟩,
                            paramIndex := 0, neg := false }, none) := by
  simp [pstep, hm, hk]

theorem pstep_gt_param (s : PState) (k : Fin 5) (hm : s.mode = .param k) :
    pstep s '>' =
      ({ applySign k s with mode := .waiting }, some (mkDispatch (applySign k s))) := by
  simp [pstep, hm]

theorem pstep_lt_waiting (s : PState) (hm : s.mode = .waiting) :
    pstep s '<' =
      ({ s with mode := .command, cmdIndex := 0, cmd0 := '-', cmd1 := '-',
                pvals := fun _ => 0 }, none) := by
  simp [pstep, hm]

theorem pstep_letter (s : PState) (c : Char) (hm : s.mode = .command)
    (hA : 'A' ≤ c) (hZ : c ≤ 'Z') (hidx : s.cmdIndex < CMD_LENGTH) :
    pstep s c =
      ({ s with cmd0 := if s.cmdIndex = 0 then c else s.cmd0,
                cmd1 := if s.cmdIndex = 1 then c else s.cmd1,
                cmdIndex := s.cmdIndex + 1 }, none) := by
  have hc1 : ¬ c = ',' := by
    rintro rfl
    revert hA
    decide
  have hc2 : ¬ c = '>' := by
    rintro rfl
    revert hA
    decide
  have hc3 : ¬ (CMD_LENGTH ≤ s.cmdIndex ∨ c < 'A' ∨ 'Z' < c) := by
    intro hh
    rcases hh with h | h | h
    · exact absurd hidx (not_lt.mpr h)
    · exact absurd h (not_lt.mpr hA)
    · exact absurd h (not_lt.mpr hZ)
  simp [pstep, hm, hc1, hc2, hc3]

theorem pstep_comma_command (s : PState) (hm : s.mode = .command)
    (hidx : s.cmdIndex = CMD_LENGTH) :
    pstep s ',' = ({ s with mode := .param 0, paramIndex := 0, neg := false }, none) := by
  simp [pstep, hm, hidx]

theorem pstep_gt_command (s : PState) (hm : s.mode = .command)
    (hidx : s.cmdIndex = CMD_LENGTH) :
    pstep s '>' = ({ s with mode := .waiting }, some (mkDispatch s)) := by
  simp [pstep, hm, hidx]

theorem applySign_paramTok (s : PState) (k : Fin 5) (p : ParamTok) :
    applySign k ({ s with pvals := Function.update s.pvals k (digitsVal p.digits),
                          paramIndex := p.digits.length + (if p.negS then 1 else 0),
                          neg := p.negS }) =
      { s with pvals := Function.update s.pvals k p.val,
               paramIndex := p.digits.length + (if p.negS then 1 else 0),
               neg := p.negS } := by
  cases hp : p.negS <;>
    simp [applySign, ParamTok.val, hp, Function.update_idem, Function.update_same]

theorem update_eq_pval (f : Fin 5 → Int) (k : Fin 5) (p : ParamTok)
    (z : ∀ j : Fin 5, (k : Nat) ≤ (j : Nat) → f j = 0) (i : Fin 5) :
    Function.update f k p.val i = pval f k [p] i := by
  rcases lt_trichotomy ((i : Nat)) ((k : Nat)) with h | h | h
  · rw [Function.update_noteq (by intro hh; rw [hh] at h; omega)]
    rw [pval, if_pos h]
  · have hik : i = k := Fin.ext h
    subst hik
    rw [Function.update_same, pval, if_neg (by omega)]
    simp
  · rw [Function.update_noteq (by intro hh; rw [hh] at h; omega)]
    rw [z i (by omega), pval, if_neg (by omega)]
    rw [List.getD_eq_default]
    simp
    omega

theorem pval_shift (f : Fin 5 → Int) (k : Fin 5) (hk4 : (k : Nat) < 4)
    (p : ParamTok) (qs : List ParamTok) (i : Fin 5)
    (z : ∀ j : Fin 5, (k : Nat) ≤ (j : Nat) → f j = 0) :
    pval (Function.update f k p.val) ⟨(k : Nat) + 1, by omega⟩ qs i =
      pval f k (p :: qs) i := by
  rcases lt_trichotomy ((i : Nat)) ((k : Nat)) with h | h | h
  · rw [pval, pval, if_pos (by simpa using by omega), if_pos h]
    rw [Function.update_noteq (by intro hh; rw [hh] at h; omega)]
  · have hik : i = k := Fin.ext h
    subst hik
    rw [pval, pval, if_pos (by simpa using by omega), if_neg (by omega)]
    rw [Function.update_same]
    simp
  · rw [pval, pval, if_neg (by simpa using by omega), if_neg (by omega)]
    have harith : (i : Nat) - (k : Nat) = ((i : Nat) - ((k : Nat) + 1)) + 1 := by omega
    rw [harith]
    simp

theorem pval_zero (f : Fin 5 → Int) (ps : List ParamTok) (i : Fin 5) :
    pval f 0 ps i = (ps.map ParamTok.val).getD ((i : Nat)) 0 := by
  rw [pval, if_neg (by omega)]
  simp

theorem exists_waiting_step (A : PState) (B C : List Dispatch) (h : B = C)
    (hm : A.mode = .waiting) :
    ∃ s2 : PState, (A, B) = (s2, C) ∧ s2.mode = .waiting := ⟨A, by rw [h], hm⟩

theorem prun_params (rest : List ParamTok) :
    ∀ (p : ParamTok) (k : Fin 5) (s : PState),
    s.mode = .param k → s.paramIndex = 0 → s.neg = false →
    (∀ j : Fin 5, (k : Nat) ≤ (j : Nat) → s.pvals j = 0) →
    p.wf → (∀ q ∈ rest, q.wf) →
    (k : Nat) + (1 + rest.length) ≤ 5 →
    ∃ s2 : PState,
      prun s (p.chars ++ ((rest.map (fun q => ',' :: q.chars)).flatten ++ ['>'])) =
        (s2, [⟨s.cmd0, s.cmd1,
          pval s.pvals k (p :: rest) 0, pval s.pvals k (p :: rest) 1,
          pval s.pvals k (p :: rest) 2, pval s.pvals k (p :: rest) 3,
          pval s.pvals k (p :: rest) 4⟩]) ∧ s2.mode = .waiting := by
  induction rest with
  | nil =>
      intro p k s hm hidx hneg hz hwfp hwfr hlen
      simp only [List.map_nil, List.flatten_nil, List.nil_append]
      rw [prun_append, prun_paramTok s k p hm hidx hneg (hz k (le_refl _)) hwfp]
      dsimp only
      rw [prun_cons, pstep_gt_param
        { s with pvals := Function.update s.pvals k (digitsVal p.digits),
                 paramIndex := p.digits.length + (if p.negS then 1 else 0),
                 neg := p.negS } k (by exact hm)]
      rw [applySign_paramTok s k p]
      dsimp only [prun]
      apply exists_waiting_step _ _ _ _ rfl
      have h0 := update_eq_pval s.pvals k p hz 0
      have h1 := update_eq_pval s.pvals k p hz 1
      have h2 := update_eq_pval s.pvals k p hz 2
      have h3 := update_eq_pval s.pvals k p hz 3
      have h4 := update_eq_pval s.pvals k p hz 4
      simp [mkDispatch, h0, h1, h2, h3, h4]
  | cons q rest ih =>
      intro p k s hm hidx hneg hz hwfp hwfr hlen
      have hre : ((((q :: rest).map (fun r => ',' :: r.chars)).flatten) ++ ['>']) =
          ',' :: (q.chars ++ (((rest.map (fun r => ',' :: r.chars)).flatten) ++ ['>'])) := by
        simp
      rw [hre]
      rw [prun_append, prun_paramTok s k p hm hidx hneg (hz k (le_refl _)) hwfp]
      dsimp only
      rw [prun_cons]
      have hk4 : (k : Nat) < 4 := by
        simp only [List.length_cons] at hlen
        omega
      rw [pstep_comma_param
        { s with pvals := Function.update s.pvals k (digitsVal p.digits),
                 paramIndex := p.digits.length + (if p.negS then 1 else 0),
                 neg := p.negS } k (by exact hm) hk4]
      rw [applySign_paramTok s k p]
      dsimp only
      have hz2 : ∀ j : Fin 5, ((k : Nat) + 1) ≤ (j : Nat) →
          Function.update s.pvals k p.val j = 0 := by
        intro j hj
        rw [Function.update_noteq (by intro hh; rw [hh] at hj; omega)]
        exact hz j (by omega)
      obtain ⟨s2, hs2, hs2m⟩ := ih q ⟨(k : Nat) + 1, by omega⟩
        ⟨.param ⟨(k : Nat) + 1, by omega⟩, s.cmd0, s.cmd1, s.cmdIndex,
         Function.update s.pvals k p.val, 0, false⟩
        rfl rfl rfl
        (by intro j hj; exact hz2 j (by simpa using hj))
        (hwfr q (List.mem_cons_self q rest))
        (fun r hr => hwfr r (List.mem_cons_of_mem q hr))
        (by simp only [List.length_cons] at hlen ⊢; omega)
      rw [hs2]
      refine ⟨s2, ?_, hs2m⟩
      have h0 := pval_shift s.pvals k hk4 p (q :: rest) 0 hz
      have h1 := pval_shift s.pvals k hk4 p (q :: rest) 1 hz
      have h2 := pval_shift s.pvals k hk4 p (q :: rest) 2 hz
      have h3 := pval_shift s.pvals k hk4 p (q :: rest) 3 hz
      have h4 := pval_shift s.pvals k hk4 p (q :: rest) 4 hz
      simp only at h0 h1 h2 h3 h4 ⊢
      rw [h0, h1, h2, h3, h4]
      rfl

theorem prun_letters (pi : Nat) (ng : Bool) (c0 c1 : Char)
    (h0A : 'A' ≤ c0) (h0Z : c0 ≤ 'Z') (h1A : 'A' ≤ c1) (h1Z : c1 ≤ 'Z') :
    prun ⟨.command, '-', '-', 0, fun _ => 0, pi, ng⟩ [c0, c1] =
      (⟨.command, c0, c1, 2, fun _ => 0, pi, ng⟩, []) := by
  rw [prun_cons, pstep_letter ⟨.command, '-', '-', 0, fun _ => 0, pi, ng⟩ c0 rfl h0A h0Z
    (by show (0 : Nat) < CMD_LENGTH; decide)]
  norm_num
  rw [prun_cons, pstep_letter ⟨.command, c0, '-', 1, fun _ => 0, pi, ng⟩ c1 rfl h1A h1Z
    (by show (1 : Nat) < CMD_LENGTH; decide)]
  norm_num
  rfl

theorem prun_cmd (s : PState) (tok : CmdTok) (hm : s.mode = .waiting)
    (hwf : tok.wf) :
    ∃ s2 : PState, prun s tok.chars = (s2, [tok.dispatch]) ∧ s2.mode = .waiting := by
  obtain ⟨hA0, hA1, hps5, hpswf⟩ := hwf
  have hch : tok.chars =
      '<' :: ([tok.c0, tok.c1] ++ ((tok.ps.map (fun p => ',' :: p.chars)).flatten ++ ['>'])) := by
    rw [CmdTok.chars]
    rfl
  rw [hch, prun_cons, pstep_lt_waiting s hm]
  dsimp only
  rw [prun_append]
  rw [prun_letters s.paramIndex s.neg tok.c0 tok.c1 hA0.1 hA0.2 hA1.1 hA1.2]
  dsimp only
  rcases hps : tok.ps with - | ⟨p, rest⟩
  · simp only [hps, List.map_nil, List.flatten_nil, List.nil_append]
    rw [prun_cons, pstep_gt_command
      ⟨.command, tok.c0, tok.c1, 2, fun _ => 0, s.paramIndex, s.neg⟩ rfl rfl]
    dsimp only [prun]
    apply exists_waiting_step _ _ _ _ rfl
    simp [mkDispatch, CmdTok.dispatch, hps]
  · simp only [hps, List.map_cons, List.flatten_cons, List.cons_append]
    rw [prun_cons, pstep_comma_command
      ⟨.command, tok.c0, tok.c1, 2, fun _ => 0, s.paramIndex, s.neg⟩ rfl rfl]
    dsimp only
    rw [List.append_assoc]
    obtain ⟨s2, hs2, hs2m⟩ := prun_params rest p 0
      ⟨.param 0, tok.c0, tok.c1, 2, fun _ => 0, 0, false⟩
      rfl rfl rfl (fun j _ => rfl)
      (hpswf p (by rw [hps]; exact List.mem_cons_self p rest))
      (fun r hr => hpswf r (by rw [hps]; exact List.mem_cons_of_mem p hr))
      (by rw [hps] at hps5; simp only [List.length_cons] at hps5; omega)
    rw [hs2]
    refine ⟨s2, ?_, hs2m⟩
    simp [CmdTok.dispatch, hps, pval_zero]
    constructor
    · show (p.val :: List.map ParamTok.val rest)[(3 : Nat)]?.getD 0 = _
      simp [List.getElem?_map]
    · show (p.val :: List.map ParamTok.val rest)[(4 : Nat)]?.getD 0 = _
      simp [List.getElem?_map]

/-! ## Run and schedule helpers -/

theorem runTicks_one (s : SysState) (t : Int) :
    runTicks s [t] = ((loop_Animation s t).1, (loop_Animation s t).2) := by
  simp [runTicks_cons, runTicks]

theorem projTrace_cons (s : SysState) (t : Int) (ts : List Int) :
    projTrace s (t :: ts) =
      ((loop_Animation s t).1.currAnim, (loop_Animation s t).1.targetFrame,
        (loop_Animation s t).1.animInProgress) :: projTrace (loop_Animation s t).1 ts := rfl

theorem projTrace_append (s : SysState) (ts1 ts2 : List Int) :
    projTrace s (ts1 ++ ts2) =
      projTrace s ts1 ++ projTrace (runTicks s ts1).1 ts2 := by
  induction ts1 generalizing s with
  | nil => rfl
  | cons t ts ih =>
      simp only [List.cons_append, projTrace_cons, runTicks_cons, ih]

theorem schedule_zero (t0 d : Int) : schedule t0 d 0 = [] := rfl

theorem schedule_cons (t0 d : Int) (n : Nat) :
    schedule t0 d (n + 1) = (t0 + d) :: schedule (t0 + d) d n := by
  rw [schedule, schedule, List.range_succ_eq_map, List.map_cons, List.map_map]
  simp only [List.cons.injEq]
  constructor
  · push_cast
    ring
  · apply List.map_congr_left
    intro i hi
    simp only [Function.comp]
    push_cast
    ring

theorem schedule_one (t0 d : Int) : schedule t0 d 1 = [t0 + d] := by
  rw [schedule_cons, schedule_zero]

theorem schedule_append (a : Nat) :
    ∀ (t0 : Int) (d : Int) (b : Nat),
      schedule t0 d (a + b) = schedule t0 d a ++ schedule (t0 + (a : Int) * d) d b := by
  induction a with
  | zero =>
      intro t0 d b
      simp [schedule_zero]
  | succ a ih =>
      intro t0 d b
      rw [Nat.add_right_comm a 1 b, schedule_cons, ih (t0 + d) d b, schedule_cons]
      rw [List.cons_append]
      have harith : t0 + d + (a : Int) * d = t0 + ((a : Nat) + 1 : Int) * d := by ring
      rw [harith]
      push_cast
      ring_nf

/-! ## Mid-pass machinery for the looping claims -/

theorem targetKF_eq (s : SysState) (r : AnimRef) (st : AnimStore) (j : Nat)
    (hc : s.currAnim = some r) (hs : s.store = st) (hj : s.targetFrame = j) :
    targetKF s = (animData st r).getD j FrameD := by
  simp [targetKF, curFrames, hc, hs, hj]

theorem notifEvents_nil : notifEvents [] = [] := rfl

theorem notifEvents_servo (a b c d : Int) :
    notifEvents [Ev.servoWrite a b c d] = [] := rfl

theorem notifEvents_tween (s : SysState) (t : Int) :
    notifEvents (tweenServos s t).2 = [] := by
  rw [tweenServos]
  dsimp only
  split <;> simp [notifEvents]

theorem promoteTick (s : SysState) (t : Int) (α : AnimRef)
    (hα : s.nextAnim = some α) (hplay : s.animInProgress = false)
    (hint : s.interruptInProgressAnim = false)
    (ht : s.timeAtLastAnimUpdate + millisBetweenAnimUpdate ≤ t)
    (htw : 0 ≤ ((animData s.store α).getD 1 FrameD).tween) :
    ∃ (s' : SysState) (evs : List Ev), loop_Animation s t = (s', evs) ∧
      MidOK α s.nextFinishAnim s.nextAnimNumLoops s.nextAnimCompleteStr s.store t 1 s' ∧
      notifEvents evs = [] := by
  have hskip : ¬ (s.timeAtLastAnimUpdate + millisBetweenAnimUpdate > t) := by omega
  rw [loop_Animation_go s t hskip]
  have hpe := startQueuedAnim_promote { s with timeAtLastAnimUpdate := t } t α
    (by exact hα) (by exact hplay) (by exact hint)
  have htkf : ¬ (t - t > ((animData s.store α).getD 1 FrameD).tween) := by omega
  rw [animBody_full _ t _ _ _ _ hpe rfl (frameAdvance_hold _ t (by exact htkf)) rfl]
  refine ⟨_, _, rfl, ⟨rfl, rfl, rfl, rfl, rfl, rfl, rfl, rfl, by exact hint, rfl, rfl⟩, ?_⟩
  simp only [List.nil_append]
  rw [notifEvents_tween]

theorem midrun (d : Int) (r : AnimRef) (fin : Option AnimRef) (L : Int)
    (cs : Char × Char) (st : AnimStore)
    (hd : millisBetweenAnimUpdate ≤ d) (m : Nat) :
    ∀ (j : Nat) (s : SysState) (tm : Int),
      MidOK r fin L cs st tm j s → 1 ≤ j →
      ((j : Int) + (m : Int) ≤ NumOfFrames (animData st r)) →
      (∀ i : Nat, 1 ≤ i → (i : Int) ≤ NumOfFrames (animData st r) →
        0 ≤ ((animData st r).getD i FrameD).tween ∧
          ((animData st r).getD i FrameD).tween < d) →
      ∃ (s' : SysState) (evs : List Ev),
        runTicks s (schedule tm d m) = (s', evs) ∧
        MidOK r fin L cs st (tm + (m : Int) * d) (j + m) s' ∧
        notifEvents evs = [] ∧
        projTrace s (schedule tm d m) =
          (List.range m).map (fun i => (some r, j + i + 1, true)) := by
  induction m with
  | zero =>
      intro j s tm hok hj hle hdur
      have h0 : tm + ((0 : Nat) : Int) * d = tm := by push_cast; ring
      refine ⟨s, [], by rw [schedule_zero]; rfl, ?_, rfl, by rw [schedule_zero]; rfl⟩
      rw [h0]
      exact hok
  | succ m ih =>
      intro j s tm hok hj hle hdur
      obtain ⟨hst, hcur, hfin, htf, hL, hcs, hip, hnx, hint, hts, htl⟩ := hok
      have hskip : ¬ (s.timeAtLastAnimUpdate + millisBetweenAnimUpdate > tm + d) := by
        rw [htl]
        omega
      rw [schedule_cons, runTicks_cons, projTrace_cons]
      rw [loop_Animation_go s (tm + d) hskip]
      have hpe := startQueuedAnim_none { s with timeAtLastAnimUpdate := tm + d } (tm + d)
        (by exact hnx)
      have htkf := targetKF_eq { s with timeAtLastAnimUpdate := tm + d } r st j
        (by exact hcur) (by exact hst) (by exact htf)
      have hjle : (j : Int) ≤ NumOfFrames (animData st r) := by
        push_cast at hle
        omega
      have hdj := hdur j hj hjle
      have hadv : (tm + d) - ({ s with timeAtLastAnimUpdate := tm + d } : SysState).timeAtStartOfFrame >
          (targetKF { s with timeAtLastAnimUpdate := tm + d }).tween := by
        rw [htkf]
        show (tm + d) - s.timeAtStartOfFrame > _
        rw [hts]
        omega
      have hcf : curFrames { s with timeAtLastAnimUpdate := tm + d } = animData st r := by
        simp [curFrames, hcur, hst]
      have hlt : ((({ s with timeAtLastAnimUpdate := tm + d } : SysState).targetFrame + 1 : Nat) : Int) ≤
          NumOfFrames (curFrames { s with timeAtLastAnimUpdate := tm + d }) := by
        rw [hcf]
        show ((s.targetFrame + 1 : Nat) : Int) ≤ _
        rw [htf]
        push_cast at hle ⊢
        omega
      have hae := frameAdvance_mid { s with timeAtLastAnimUpdate := tm + d } (tm + d) hadv hlt
      rw [animBody_full _ (tm + d) _ _ _ _ hpe (by exact hip) hae (by exact hip)]
      have hok1 : MidOK r fin L cs st (tm + d) (j + 1)
          (tweenServos { { s with timeAtLastAnimUpdate := tm + d } with
            currLeftHip := snapLH { s with timeAtLastAnimUpdate := tm + d },
            currLeftFoot := snapLF { s with timeAtLastAnimUpdate := tm + d },
            currRightHip := snapRH { s with timeAtLastAnimUpdate := tm + d },
            currRightFoot := snapRF { s with timeAtLastAnimUpdate := tm + d },
            startLeftHip := snapLH { s with timeAtLastAnimUpdate := tm + d },
            startLeftFoot := snapLF { s with timeAtLastAnimUpdate := tm + d },
            startRightHip := snapRH { s with timeAtLastAnimUpdate := tm + d },
            startRightFoot := snapRF { s with timeAtLastAnimUpdate := tm + d },
            targetFrame := ({ s with timeAtLastAnimUpdate := tm + d } : SysState).targetFrame + 1,
            timeAtStartOfFrame := tm + d } (tm + d)).1 := by
        refine ⟨by exact hst, by exact hcur, by exact hfin, ?_, by exact hL, by exact hcs,
          by exact hip, by exact hnx, by exact hint, rfl, rfl⟩
        show s.targetFrame + 1 = j + 1
        rw [htf]
      obtain ⟨s', evs, hrun, hok2, hnev, hproj⟩ := ih (j + 1) _ (tm + d) hok1 (by omega)
        (by push_cast at hle ⊢; omega) hdur
      rw [hrun, hproj]
      refine ⟨_, _, rfl, ?_, ?_, ?_⟩
      · have ht1 : tm + d + (m : Int) * d = tm + ((m + 1 : Nat) : Int) * d := by
          push_cast
          ring
        have ht2 : j + 1 + m = j + (m + 1) := by omega
        rw [ht1, ht2] at hok2
        exact hok2
      · simp only [notifEvents_append, notifEvents_tween, notifEvents_servo,
          notifEvents_nil, hnev, List.append_nil, List.nil_append]
      · rw [List.range_succ_eq_map, List.map_cons, List.map_map]
        refine congrArg₂ List.cons ?_ ?_
        · show (s.currAnim, s.targetFrame + 1, s.animInProgress) = (some r, j + 0 + 1, true)
          rw [hcur, htf, hip]
        · apply List.map_congr_left
          intro i hi
          have hnum : j + 1 + i + 1 = j + (i + 1) + 1 := by omega
          simp [Function.comp, hnum]

theorem endTick_requeue (d : Int) (r : AnimRef) (fin : Option AnimRef) (L : Int)
    (cs : Char × Char) (st : AnimStore) (F : Nat) (s : SysState) (tm : Int)
    (hd : millisBetweenAnimUpdate ≤ d)
    (hok : MidOK r fin L cs st tm F s)
    (hF : NumOfFrames (animData st r) = (F : Int))
    (hLgt : L > 1)
    (htw : ((animData st r).getD F FrameD).tween < d) :
    ∃ (s' : SysState) (evs : List Ev), loop_Animation s (tm + d) = (s', evs) ∧
      s'.store = st ∧ s'.currAnim = some r ∧ s'.animInProgress = false ∧
      s'.nextAnim = some r ∧ s'.nextFinishAnim = fin ∧ s'.nextAnimNumLoops = L - 1 ∧
      s'.nextAnimCompleteStr = cs ∧ s'.interruptInProgressAnim = false ∧
      s'.timeAtLastAnimUpdate = tm + d ∧ s'.targetFrame = F + 1 ∧
      notifEvents evs = [] := by
  obtain ⟨hst, hcur, hfin, htf, hL, hcs, hip, hnx, hint, hts, htl⟩ := hok
  have hskip : ¬ (s.timeAtLastAnimUpdate + millisBetweenAnimUpdate > tm + d) := by
    rw [htl]
    omega
  rw [loop_Animation_go s (tm + d) hskip]
  have hpe := startQueuedAnim_none { s with timeAtLastAnimUpdate := tm + d } (tm + d)
    (by exact hnx)
  have htkf := targetKF_eq { s with timeAtLastAnimUpdate := tm + d } r st F
    (by exact hcur) (by exact hst) (by exact htf)
  have hadv : (tm + d) - ({ s with timeAtLastAnimUpdate := tm + d } : SysState).timeAtStartOfFrame >
      (targetKF { s with timeAtLastAnimUpdate := tm + d }).tween := by
    rw [htkf]
    show (tm + d) - s.timeAtStartOfFrame > _
    rw [hts]
    omega
  have hcf : curFrames { s with timeAtLastAnimUpdate := tm + d } = animData st r := by
    simp [curFrames, hcur, hst]
  have hgt : ((({ s with timeAtLastAnimUpdate := tm + d } : SysState).targetFrame + 1 : Nat) : Int) >
      NumOfFrames (curFrames { s with timeAtLastAnimUpdate := tm + d }) := by
    rw [hcf, hF]
    show ((s.targetFrame + 1 : Nat) : Int) > _
    rw [htf]
    push_cast
    omega
  have hae := frameAdvance_requeue { s with timeAtLastAnimUpdate := tm + d } (tm + d) hadv hgt
    (by show s.animNumLoops > 1; rw [hL]; exact hLgt) (by exact hnx)
  rw [animBody_adv_stop _ (tm + d) _ _ _ _ hpe (by exact hip) hae rfl]
  refine ⟨_, _, rfl, by exact hst, by exact hcur, rfl, by exact hcur, by exact hfin,
    ?_, by exact hcs, by exact hint, rfl, ?_, ?_⟩
  · show s.animNumLoops - 1 = L - 1
    rw [hL]
  · show s.targetFrame + 1 = F + 1
    rw [htf]
  · simp only [List.nil_append]
    exact notifEvents_servo _ _ _ _

theorem endTick_finish (d : Int) (r φ : AnimRef) (L : Int)
    (cs : Char × Char) (st : AnimStore) (F : Nat) (s : SysState) (tm : Int)
    (hd : millisBetweenAnimUpdate ≤ d)
    (hok : MidOK r (some φ) L cs st tm F s)
    (hF : NumOfFrames (animData st r) = (F : Int))
    (hL0 : 0 ≤ L) (hL1 : L ≤ 1)
    (htw : ((animData st r).getD F FrameD).tween < d) :
    ∃ (s' : SysState) (evs : List Ev), loop_Animation s (tm + d) = (s', evs) ∧
      MidOK φ none 1 cs st (tm + d) 1 s' ∧
      notifEvents evs = [] := by
  obtain ⟨hst, hcur, hfin, htf, hL, hcs, hip, hnx, hint, hts, htl⟩ := hok
  have hskip : ¬ (s.timeAtLastAnimUpdate + millisBetweenAnimUpdate > tm + d) := by
    rw [htl]
    omega
  rw [loop_Animation_go s (tm + d) hskip]
  have hpe := startQueuedAnim_none { s with timeAtLastAnimUpdate := tm + d } (tm + d)
    (by exact hnx)
  have htkf := targetKF_eq { s with timeAtLastAnimUpdate := tm + d } r st F
    (by exact hcur) (by exact hst) (by exact htf)
  have hadv : (tm + d) - ({ s with timeAtLastAnimUpdate := tm + d } : SysState).timeAtStartOfFrame >
      (targetKF { s with timeAtLastAnimUpdate := tm + d }).tween := by
    rw [htkf]
    show (tm + d) - s.timeAtStartOfFrame > _
    rw [hts]
    omega
  have hcf : curFrames { s with timeAtLastAnimUpdate := tm + d } = animData st r := by
    simp [curFrames, hcur, hst]
  have hgt : ((({ s with timeAtLastAnimUpdate := tm + d } : SysState).targetFrame + 1 : Nat) : Int) >
      NumOfFrames (curFrames { s with timeAtLastAnimUpdate := tm + d }) := by
    rw [hcf, hF]
    show ((s.targetFrame + 1 : Nat) : Int) > _
    rw [htf]
    push_cast
    omega
  have hae := frameAdvance_to_finish { s with timeAtLastAnimUpdate := tm + d } (tm + d) φ hadv hgt
    (by show 0 ≤ s.animNumLoops; rw [hL]; exact hL0)
    (by show s.animNumLoops ≤ 1; rw [hL]; exact hL1)
    (by exact hfin)
  rw [animBody_full _ (tm + d) _ _ _ _ hpe (by exact hip) hae rfl]
  refine ⟨_, _, rfl, ⟨by exact hst, rfl, rfl, rfl, rfl, by exact hcs, rfl, by exact hnx,
    by exact hint, rfl, rfl⟩, ?_⟩
  simp only [notifEvents_append, notifEvents_tween, notifEvents_servo,
    notifEvents_nil, List.append_nil, List.nil_append]

theorem endTick_done (d : Int) (r : AnimRef) (L : Int)
    (cs : Char × Char) (st : AnimStore) (F : Nat) (s : SysState) (tm : Int)
    (hd : millisBetweenAnimUpdate ≤ d)
    (hok : MidOK r none L cs st tm F s)
    (hF : NumOfFrames (animData st r) = (F : Int))
    (hL0 : 0 ≤ L) (hL1 : L ≤ 1)
    (htw : ((animData st r).getD F FrameD).tween < d) :
    ∃ (s' : SysState) (evs : List Ev), loop_Animation s (tm + d) = (s', evs) ∧
      s'.store = st ∧ s'.currAnim = some r ∧ s'.animInProgress = false ∧
      s'.nextAnim = none ∧ s'.interruptInProgressAnim = false ∧
      s'.timeAtLastAnimUpdate = tm + d ∧ s'.targetFrame = F + 1 ∧
      notifEvents evs = [Ev.notifyDone cs] := by
  obtain ⟨hst, hcur, hfin, htf, hL, hcs, hip, hnx, hint, hts, htl⟩ := hok
  have hskip : ¬ (s.timeAtLastAnimUpdate + millisBetweenAnimUpdate > tm + d) := by
    rw [htl]
    omega
  rw [loop_Animation_go s (tm + d) hskip]
  have hpe := startQueuedAnim_none { s with timeAtLastAnimUpdate := tm + d } (tm + d)
    (by exact hnx)
  have htkf := targetKF_eq { s with timeAtLastAnimUpdate := tm + d } r st F
    (by exact hcur) (by exact hst) (by exact htf)
  have hadv : (tm + d) - ({ s with timeAtLastAnimUpdate := tm + d } : SysState).timeAtStartOfFrame >
      (targetKF { s with timeAtLastAnimUpdate := tm + d }).tween := by
    rw [htkf]
    show (tm + d) - s.timeAtStartOfFrame > _
    rw [hts]
    omega
  have hcf : curFrames { s with timeAtLastAnimUpdate := tm + d } = animData st r := by
    simp [curFrames, hcur, hst]
  have hgt : ((({ s with timeAtLastAnimUpdate := tm + d } : SysState).targetFrame + 1 : Nat) : Int) >
      NumOfFrames (curFrames { s with timeAtLastAnimUpdate := tm + d }) := by
    rw [hcf, hF]
    show ((s.targetFrame + 1 : Nat) : Int) > _
    rw [htf]
    push_cast
    omega
  have hae := frameAdvance_done { s with timeAtLastAnimUpdate := tm + d } (tm + d) hadv hgt
    (by show 0 ≤ s.animNumLoops; rw [hL]; exact hL0)
    (by show s.animNumLoops ≤ 1; rw [hL]; exact hL1)
    (by exact hfin)
  rw [animBody_adv_stop _ (tm + d) _ _ _ _ hpe (by exact hip) hae rfl]
  refine ⟨_, _, rfl, by exact hst, by exact hcur, rfl, by exact hnx, by exact hint,
    rfl, ?_, ?_⟩
  · show s.targetFrame + 1 = F + 1
    rw [htf]
  · show notifEvents ([] ++ [Ev.servoWrite _ _ _ _, Ev.notifyDone s.animCompleteStr]) = _
    rw [hcs]
    simp [notifEvents]

theorem passRun (d : Int) (α : AnimRef) (fin : Option AnimRef) (L : Int)
    (cs : Char × Char) (st : AnimStore) (F1 : Nat) (s : SysState) (t0 : Int)
    (hd : millisBetweenAnimUpdate ≤ d)
    (hα : s.nextAnim = some α) (hfin : s.nextFinishAnim = fin)
    (hL : s.nextAnimNumLoops = L) (hcs : s.nextAnimCompleteStr = cs)
    (hst : s.store = st)
    (hplay : s.animInProgress = false) (hint : s.interruptInProgressAnim = false)
    (ht : s.timeAtLastAnimUpdate + millisBetweenAnimUpdate ≤ t0 + d)
    (hF : NumOfFrames (animData st α) = ((F1 + 1 : Nat) : Int))
    (hdur : ∀ i : Nat, 1 ≤ i → i ≤ F1 + 1 →
      0 ≤ ((animData st α).getD i FrameD).tween ∧
        ((animData st α).getD i FrameD).tween < d) :
    ∃ (s' : SysState) (evs : List Ev),
      runTicks s ((t0 + d) :: schedule (t0 + d) d F1) = (s', evs) ∧
      MidOK α fin L cs st (t0 + d + (F1 : Int) * d) (F1 + 1) s' ∧
      notifEvents evs = [] ∧
      projTrace s ((t0 + d) :: schedule (t0 + d) d F1) =
        (List.range (F1 + 1)).map (fun i => (some α, i + 1, true)) := by
  obtain ⟨sA, evA, hA, hokA, hnevA⟩ := promoteTick s (t0 + d) α hα hplay hint ht
    (by rw [hst]; exact (hdur 1 (by omega) (by omega)).1)
  rw [hfin, hL, hcs, hst] at hokA
  have hdurInt : ∀ i : Nat, 1 ≤ i → (i : Int) ≤ NumOfFrames (animData st α) →
      0 ≤ ((animData st α).getD i FrameD).tween ∧
        ((animData st α).getD i FrameD).tween < d := by
    intro i h1 h2
    rw [hF] at h2
    exact hdur i h1 (by exact_mod_cast h2)
  obtain ⟨sB, evB, hB, hokB, hnevB, hprojB⟩ := midrun d α fin L cs st hd F1 1 sA (t0 + d)
    hokA (by omega) (by rw [hF]; push_cast; omega) hdurInt
  rw [show 1 + F1 = F1 + 1 from by omega] at hokB
  obtain ⟨hstA, hcurA, hfinA, htfA, hLA, hcsA, hipA, hnxA, hintA, htsA, htlA⟩ := hokA
  refine ⟨sB, evA ++ evB, ?_, hokB, ?_, ?_⟩
  · rw [runTicks_cons, hA]
    dsimp only
    rw [hB]
  · rw [notifEvents_append, hnevA, hnevB]
    rfl
  · rw [projTrace_cons, hA]
    dsimp only
    rw [hprojB]
    rw [List.range_succ_eq_map, List.map_cons, List.map_map]
    refine congrArg₂ List.cons ?_ ?_
    · rw [hcurA, htfA, hipA]
    · apply List.map_congr_left
      intro i hi
      have hnum : 1 + i + 1 = i + 1 + 1 := by omega
      simp [Function.comp, hnum]

/-- C4: an animation enqueued with loop count 2 and a finish animation,
with the queue left empty throughout playback, plays the base animation
for exactly two full passes, then the finish animation exactly once, and
exactly one completion notification is emitted, at the final tick of the
finish animation (the run up to just before that tick emits none).
Ticks arrive every `d` ms, `d` at least the update interval, and every
keyframe duration is shorter than `d`. -/
theorem c4_two_passes_then_finish (s : SysState) (α φ : AnimRef) (cs : Char × Char)
    (d t0 : Int) (F Fφ : Nat)
    (hd : millisBetweenAnimUpdate ≤ d)
    (hplay : s.animInProgress = false)
    (hint : s.interruptInProgressAnim = false)
    (ht : s.timeAtLastAnimUpdate ≤ t0)
    (hF : NumOfFrames (animData s.store α) = (F : Int))
    (hFp : NumOfFrames (animData s.store φ) = (Fφ : Int))
    (hF1 : 1 ≤ F) (hFp1 : 1 ≤ Fφ)
    (hdur : ∀ i : Nat, i ≤ F → 1 ≤ i →
      0 ≤ ((animData s.store α).getD i FrameD).tween ∧
        ((animData s.store α).getD i FrameD).tween < d)
    (hdurp : ∀ i : Nat, i ≤ Fφ → 1 ≤ i →
      0 ≤ ((animData s.store φ).getD i FrameD).tween ∧
        ((animData s.store φ).getD i FrameD).tween < d) :
    notifEvents (runTicks (PlayAnimNumTimes s α (some φ) 2 (some cs))
        (schedule t0 d (2 * F + Fφ + 2))).2 = [Ev.notifyDone cs] ∧
    notifEvents (runTicks (PlayAnimNumTimes s α (some φ) 2 (some cs))
        (schedule t0 d (2 * F + Fφ + 1))).2 = [] ∧
    projTrace (PlayAnimNumTimes s α (some φ) 2 (some cs)) (schedule t0 d (2 * F + Fφ + 2)) =
      (((List.range F).map (fun i => (some α, i + 1, true)) ++ [(some α, F + 1, false)]) ++
       ((List.range F).map (fun i => (some α, i + 1, true)) ++ [(some φ, 1, true)])) ++
      ((List.range (Fφ - 1)).map (fun i => (some φ, i + 2, true)) ++
        [(some φ, Fφ + 1, false)]) := by
  obtain ⟨F1, rfl⟩ : ∃ k, F = k + 1 := ⟨F - 1, by omega⟩
  obtain ⟨G, rfl⟩ : ∃ k, Fφ = k + 1 := ⟨Fφ - 1, by omega⟩
  obtain ⟨sB, evAB, hRun1, hokB, hnev1, hproj1⟩ :=
    passRun d α (some φ) 2 cs s.store F1 (PlayAnimNumTimes s α (some φ) 2 (some cs)) t0
      hd rfl rfl rfl rfl rfl (by exact hplay) (by exact hint)
      (by show s.timeAtLastAnimUpdate + millisBetweenAnimUpdate ≤ t0 + d; omega) hF
      (fun i h1 h2 => hdur i h2 h1)
  obtain ⟨sC, evC, hC, hstC, hcurC, hipC, hnxC, hnfC, hnlC, hncsC, hintC, htlC, htfC, hnevC⟩ :=
    endTick_requeue d α (some φ) 2 cs s.store (F1 + 1) sB (t0 + d + (F1 : Int) * d)
      hd hokB hF (by omega) (hdur (F1 + 1) (by omega) (by omega)).2
  have hnlC1 : sC.nextAnimNumLoops = 1 := by
    rw [hnlC]
    norm_num
  obtain ⟨sE, evDE, hRun2, hokE, hnev2, hproj2⟩ :=
    passRun d α (some φ) 1 cs s.store F1 sC (t0 + d + (F1 : Int) * d + d)
      hd hnxC hnfC hnlC1 hncsC hstC hipC hintC (by rw [htlC]; omega) hF
      (fun i h1 h2 => hdur i h2 h1)
  obtain ⟨sQ, evQ, hQ, hokQ, hnevQ⟩ :=
    endTick_finish d α φ 1 cs s.store (F1 + 1) sE (t0 + d + (F1 : Int) * d + d + d + (F1 : Int) * d)
      hd hokE hF (by omega) (by omega) (hdur (F1 + 1) (by omega) (by omega)).2
  have hdurpInt : ∀ i : Nat, 1 ≤ i → (i : Int) ≤ NumOfFrames (animData s.store φ) →
      0 ≤ ((animData s.store φ).getD i FrameD).tween ∧
        ((animData s.store φ).getD i FrameD).tween < d := by
    intro i h1 h2
    rw [hFp] at h2
    exact hdurp i (by exact_mod_cast h2) h1
  obtain ⟨sG, evG, hG, hokG, hnevG, hprojG⟩ :=
    midrun d φ none 1 cs s.store hd G 1 sQ (t0 + d + (F1 : Int) * d + d + d + (F1 : Int) * d + d)
      hokQ (by omega) (by rw [hFp]; push_cast; omega) hdurpInt
  rw [show 1 + G = G + 1 from by omega] at hokG
  obtain ⟨sH, evH, hH, hstH, hcurH, hipH, hnxH, hintH, htlH, htfH, hnevH⟩ :=
    endTick_done d φ 1 cs s.store (G + 1) sG
      (t0 + d + (F1 : Int) * d + d + d + (F1 : Int) * d + d + (G : Int) * d)
      hd hokG hFp (by omega) (by omega) (hdurp (G + 1) (by omega) (by omega)).2
  have hseg : ∀ (tm : Int) (k b : Nat), schedule tm d ((k + 1) + b) =
      ((tm + d) :: schedule (tm + d) d k) ++ schedule (tm + d + (k : Int) * d) d b := by
    intro tm k b
    rw [schedule_append (k + 1) tm d b, schedule_cons]
    have harith : tm + ((k + 1 : Nat) : Int) * d = tm + d + (k : Int) * d := by
      push_cast
      ring
    rw [harith]
  have hone : ∀ (tm : Int) (b : Nat), schedule tm d (1 + b) =
      (tm + d) :: schedule (tm + d) d b := by
    intro tm b
    rw [Nat.add_comm 1 b, schedule_cons]
  have hprojG2 : projTrace sQ
      (schedule (t0 + d + (F1 : Int) * d + d + d + (F1 : Int) * d + d) d G) =
      (List.range G).map (fun i => (some φ, i + 2, true)) := by
    rw [hprojG]
    apply List.map_congr_left
    intro i hi
    have hnum : 1 + i + 1 = i + 2 := by omega
    rw [hnum]
  refine ⟨?_, ?_, ?_⟩
  · have hN : 2 * (F1 + 1) + (G + 1) + 2 = (F1 + 1) + (1 + ((F1 + 1) + (1 + (G + 1)))) := by
      ring
    rw [hN, hseg, hone, hseg, hone, schedule_append G, schedule_one]
    rw [runTicks_append, hRun1]
    dsimp only
    rw [runTicks_cons, hC]
    dsimp only
    rw [runTicks_append, hRun2]
    dsimp only
    rw [runTicks_cons, hQ]
    dsimp only
    rw [runTicks_append, hG]
    dsimp only
    rw [runTicks_one, hH]
    simp only [notifEvents_append, hnev1, hnevC, hnev2, hnevQ, hnevG, hnevH,
      List.nil_append, List.append_nil]
  · have hN : 2 * (F1 + 1) + (G + 1) + 1 = (F1 + 1) + (1 + ((F1 + 1) + (1 + G))) := by
      ring
    rw [hN, hseg, hone, hseg, hone]
    rw [runTicks_append, hRun1]
    dsimp only
    rw [runTicks_cons, hC]
    dsimp only
    rw [runTicks_append, hRun2]
    dsimp only
    rw [runTicks_cons, hQ]
    dsimp only
    rw [hG]
    simp only [notifEvents_append, hnev1, hnevC, hnev2, hnevQ, hnevG,
      List.nil_append, List.append_nil]
  · have hN : 2 * (F1 + 1) + (G + 1) + 2 = (F1 + 1) + (1 + ((F1 + 1) + (1 + (G + 1)))) := by
      ring
    rw [hN, hseg, hone, hseg, hone, schedule_append G, schedule_one]
    rw [projTrace_append, hRun1]
    dsimp only
    rw [hproj1, projTrace_cons, hC]
    dsimp only
    rw [hcurC, htfC, hipC]
    rw [projTrace_append, hRun2]
    dsimp only
    rw [hproj2, projTrace_cons, hQ]
    dsimp only
    obtain ⟨hstQ, hcurQ, hfinQ, htfQ, hLQ, hcsQ, hipQ, hnxQ, hintQ, htsQ, htlQ⟩ := hokQ
    rw [hcurQ, htfQ, hipQ]
    rw [projTrace_append, hG]
    dsimp only
    rw [hprojG2, projTrace_cons, hH]
    dsimp only
    rw [hcurH, htfH, hipH]
    simp only [projTrace, List.append_assoc, List.cons_append, List.nil_append,
      Nat.add_sub_cancel]
/-- Witness for C4 at a concrete input: walkEnd (2 data frames) looped
twice with standStraight (1 data frame) as the finish animation, ticked
every 301 ms from time 0. -/
theorem c4_witness :
    notifEvents (runTicks (PlayAnimNumTimes setup_Animation AnimRef.walkEnd
        (some AnimRef.standStraight) 2 (some ('C', '4')))
        (schedule 0 301 (2 * 2 + 1 + 2))).2 = [Ev.notifyDone ('C', '4')] ∧
    notifEvents (runTicks (PlayAnimNumTimes setup_Animation AnimRef.walkEnd
        (some AnimRef.standStraight) 2 (some ('C', '4')))
        (schedule 0 301 (2 * 2 + 1 + 1))).2 = [] ∧
    projTrace (PlayAnimNumTimes setup_Animation AnimRef.walkEnd
        (some AnimRef.standStraight) 2 (some ('C', '4'))) (schedule 0 301 (2 * 2 + 1 + 2)) =
      (((List.range 2).map (fun i => (some AnimRef.walkEnd, i + 1, true)) ++
          [(some AnimRef.walkEnd, 2 + 1, false)]) ++
       ((List.range 2).map (fun i => (some AnimRef.walkEnd, i + 1, true)) ++
          [(some AnimRef.standStraight, 1, true)])) ++
      ((List.range (1 - 1)).map (fun i => (some AnimRef.standStraight, i + 2, true)) ++
        [(some AnimRef.standStraight, 1 + 1, false)]) :=
  c4_two_passes_then_finish setup_Animation AnimRef.walkEnd AnimRef.standStraight ('C', '4')
    301 0 2 1 (by decide) rfl rfl (by decide) (by decide) (by decide) (by decide) (by decide)
    (by decide) (by decide)

/-! ## Loop-count equivalence machinery (claim C7) -/

theorem startQueuedAnim_skip (s : SysState) (t : Int) (h2 : s.animInProgress = true)
    (h3 : s.interruptInProgressAnim = false) :
    startQueuedAnim s t = (s, []) := by
  rw [startQueuedAnim, if_neg]
  simp [h2, h3]

theorem tweenServos_loops (s : SysState) (a b t : Int) :
    tweenServos { s with animNumLoops := a, nextAnimNumLoops := b } t =
      ({ (tweenServos s t).1 with animNumLoops := a, nextAnimNumLoops := b },
       (tweenServos s t).2) := rfl

theorem startQueuedAnim_loops (s : SysState) (a b t : Int)
    (ha : LoopsOK s.animNumLoops a) (hb : LoopsOK s.nextAnimNumLoops b) :
    ∃ a2 : Int,
      LoopsOK (startQueuedAnim s t).1.animNumLoops a2 ∧
      LoopsOK (startQueuedAnim s t).1.nextAnimNumLoops b ∧
      startQueuedAnim { s with animNumLoops := a, nextAnimNumLoops := b } t =
        ({ (startQueuedAnim s t).1 with animNumLoops := a2, nextAnimNumLoops := b },
         (startQueuedAnim s t).2) := by
  by_cases hnx : s.nextAnim = none
  · rw [startQueuedAnim_none s t hnx,
      startQueuedAnim_none { s with animNumLoops := a, nextAnimNumLoops := b } t (by exact hnx)]
    exact ⟨a, ha, hb, rfl⟩
  · obtain ⟨α, hα⟩ := Option.ne_none_iff_exists'.mp hnx
    by_cases hi : s.interruptInProgressAnim = true
    · rw [startQueuedAnim_interrupt s t α hα hi,
        startQueuedAnim_interrupt { s with animNumLoops := a, nextAnimNumLoops := b } t α
          (by exact hα) (by exact hi)]
      exact ⟨b, hb, hb, rfl⟩
    · by_cases hp : s.animInProgress = false
      · rw [startQueuedAnim_promote s t α hα hp (by simpa using hi),
          startQueuedAnim_promote { s with animNumLoops := a, nextAnimNumLoops := b } t α
            (by exact hα) (by exact hp) (by simpa using hi)]
        exact ⟨b, hb, hb, rfl⟩
      · rw [startQueuedAnim_skip s t (by simpa using hp) (by simpa using hi),
          startQueuedAnim_skip { s with animNumLoops := a, nextAnimNumLoops := b } t
            (by simpa using hp) (by simpa using hi)]
        exact ⟨a, ha, hb, rfl⟩

theorem frameAdvance_inf_queued_finish (s : SysState) (t : Int) (φ : AnimRef)
    (hadv : t - s.timeAtStartOfFrame > (targetKF s).tween)
    (hgt : ((s.targetFrame + 1 : Nat) : Int) > NumOfFrames (curFrames s))
    (hL : s.animNumLoops < 0) (hn : ¬ s.nextAnim = none)
    (hf : s.finishAnim = some φ) :
    frameAdvance s t =
      ({ s with currLeftHip := snapLH s, currLeftFoot := snapLF s,
                currRightHip := snapRH s, currRightFoot := snapRF s,
                startLeftHip := snapLH s, startLeftFoot := snapLF s,
                startRightHip := snapRH s, startRightFoot := snapRF s,
                targetFrame := 1, timeAtStartOfFrame := t,
                animInProgress := true,
                currAnim := some φ, finishAnim := none, animNumLoops := 1 },
       [Ev.servoWrite (snapLH s) (snapLF s) (snapRH s) (snapRF s)]) := by
  have hgt2 : NumOfFrames (curFrames s) < (s.targetFrame : Int) + 1 := by
    push_cast at hgt
    omega
  simp [frameAdvance, hadv, hgt2, hL, hn, hf]

theorem frameAdvance_inf_queued_done (s : SysState) (t : Int)
    (hadv : t - s.timeAtStartOfFrame > (targetKF s).tween)
    (hgt : ((s.targetFrame + 1 : Nat) : Int) > NumOfFrames (curFrames s))
    (hL : s.animNumLoops < 0) (hn : ¬ s.nextAnim = none)
    (hf : s.finishAnim = none) :
    frameAdvance s t =
      ({ s with currLeftHip := snapLH s, currLeftFoot := snapLF s,
                currRightHip := snapRH s, currRightFoot := snapRF s,
                startLeftHip := snapLH s, startLeftFoot := snapLF s,
                startRightHip := snapRH s, startRightFoot := snapRF s,
                targetFrame := s.targetFrame + 1, timeAtStartOfFrame := t,
                animInProgress := false },
       [Ev.servoWrite (snapLH s) (snapLF s) (snapRH s) (snapRF s),
        Ev.notifyDone s.animCompleteStr]) := by
  have hgt2 : NumOfFrames (curFrames s) < (s.targetFrame : Int) + 1 := by
    push_cast at hgt
    omega
  simp [frameAdvance, hadv, hgt2, hL, hn, hf]

theorem frameAdvance_else_finish (s : SysState) (t : Int) (φ : AnimRef)
    (hadv : t - s.timeAtStartOfFrame > (targetKF s).tween)
    (hgt : ((s.targetFrame + 1 : Nat) : Int) > NumOfFrames (curFrames s))
    (hneg : ¬ s.animNumLoops < 0)
    (hng : ¬ (s.animNumLoops > 1 ∧ s.nextAnim = none))
    (hf : s.finishAnim = some φ) :
    frameAdvance s t =
      ({ s with currLeftHip := snapLH s, currLeftFoot := snapLF s,
                currRightHip := snapRH s, currRightFoot := snapRF s,
                startLeftHip := snapLH s, startLeftFoot := snapLF s,
                startRightHip := snapRH s, startRightFoot := snapRF s,
                targetFrame := 1, timeAtStartOfFrame := t,
                animInProgress := true,
                currAnim := some φ, finishAnim := none, animNumLoops := 1 },
       [Ev.servoWrite (snapLH s) (snapLF s) (snapRH s) (snapRF s)]) := by
  have hgt2 : NumOfFrames (curFrames s) < (s.targetFrame : Int) + 1 := by
    push_cast at hgt
    omega
  rcases Decidable.not_and_iff_or_not.mp hng with h1 | h2
  · simp [frameAdvance, hadv, hgt2, hneg, h1, hf]
  · simp [frameAdvance, hadv, hgt2, hneg, h2, hf]

theorem frameAdvance_else_done (s : SysState) (t : Int)
    (hadv : t - s.timeAtStartOfFrame > (targetKF s).tween)
    (hgt : ((s.targetFrame + 1 : Nat) : Int) > NumOfFrames (curFrames s))
    (hneg : ¬ s.animNumLoops < 0)
    (hng : ¬ (s.animNumLoops > 1 ∧ s.nextAnim = none))
    (hf : s.finishAnim = none) :
    frameAdvance s t =
      ({ s with currLeftHip := snapLH s, currLeftFoot := snapLF s,
                currRightHip := snapRH s, currRightFoot := snapRF s,
                startLeftHip := snapLH s, startLeftFoot := snapLF s,
                startRightHip := snapRH s, startRightFoot := snapRF s,
                targetFrame := s.targetFrame + 1, timeAtStartOfFrame := t,
                animInProgress := false },
       [Ev.servoWrite (snapLH s) (snapLF s) (snapRH s) (snapRF s),
        Ev.notifyDone s.animCompleteStr]) := by
  have hgt2 : NumOfFrames (curFrames s) < (s.targetFrame : Int) + 1 := by
    push_cast at hgt
    omega
  rcases Decidable.not_and_iff_or_not.mp hng with h1 | h2
  · simp [frameAdvance, hadv, hgt2, hneg, h1, hf]
  · simp [frameAdvance, hadv, hgt2, hneg, h2, hf]

theorem frameAdvance_loops (s : SysState) (a b t : Int)
    (ha : LoopsOK s.animNumLoops a) (hb : LoopsOK s.nextAnimNumLoops b) :
    ∃ a2 b2 : Int,
      LoopsOK (frameAdvance s t).1.animNumLoops a2 ∧
      LoopsOK (frameAdvance s t).1.nextAnimNumLoops b2 ∧
      frameAdvance { s with animNumLoops := a, nextAnimNumLoops := b } t =
        ({ (frameAdvance s t).1 with animNumLoops := a2, nextAnimNumLoops := b2 },
         (frameAdvance s t).2) := by
  by_cases hadv : t - s.timeAtStartOfFrame > (targetKF s).tween
  case neg =>
    rw [frameAdvance_hold s t hadv,
      frameAdvance_hold { s with animNumLoops := a, nextAnimNumLoops := b } t (by exact hadv)]
    exact ⟨a, b, ha, hb, rfl⟩
  case pos =>
  by_cases hcnt : ((s.targetFrame + 1 : Nat) : Int) ≤ NumOfFrames (curFrames s)
  case pos =>
    rw [frameAdvance_mid s t hadv hcnt,
      frameAdvance_mid { s with animNumLoops := a, nextAnimNumLoops := b } t
        (by exact hadv) (by exact hcnt)]
    exact ⟨a, b, ha, hb, rfl⟩
  case neg =>
  have hgt : ((s.targetFrame + 1 : Nat) : Int) > NumOfFrames (curFrames s) := by omega
  rcases ha with rfl | ⟨ha0, rfl⟩
  · -- the loop counters agree: the two states take the same policy branch
    by_cases hL0 : s.animNumLoops < 0
    · by_cases hn : s.nextAnim = none
      · rw [frameAdvance_requeue_inf s t hadv hgt hL0 hn,
          frameAdvance_requeue_inf { s with animNumLoops := s.animNumLoops, nextAnimNumLoops := b }
            t (by exact hadv) (by exact hgt) (by exact hL0) (by exact hn)]
        exact ⟨s.animNumLoops, -1, Or.inl rfl, Or.inl rfl, rfl⟩
      · by_cases hf : s.finishAnim = none
        · rw [frameAdvance_inf_queued_done s t hadv hgt hL0 hn hf,
            frameAdvance_inf_queued_done
              { s with animNumLoops := s.animNumLoops, nextAnimNumLoops := b } t
              (by exact hadv) (by exact hgt) (by exact hL0) (by exact hn) (by exact hf)]
          exact ⟨s.animNumLoops, b, Or.inl rfl, hb, rfl⟩
        · obtain ⟨φ, hφ⟩ := Option.ne_none_iff_exists'.mp hf
          rw [frameAdvance_inf_queued_finish s t φ hadv hgt hL0 hn hφ,
            frameAdvance_inf_queued_finish
              { s with animNumLoops := s.animNumLoops, nextAnimNumLoops := b } t φ
              (by exact hadv) (by exact hgt) (by exact hL0) (by exact hn) (by exact hφ)]
          exact ⟨1, b, Or.inl rfl, hb, rfl⟩
    · by_cases hLg : s.animNumLoops > 1 ∧ s.nextAnim = none
      · rw [frameAdvance_requeue s t hadv hgt hLg.1 hLg.2,
          frameAdvance_requeue { s with animNumLoops := s.animNumLoops, nextAnimNumLoops := b } t
            (by exact hadv) (by exact hgt) (by exact hLg.1) (by exact hLg.2)]
        exact ⟨s.animNumLoops, s.animNumLoops - 1, Or.inl rfl, Or.inl rfl, rfl⟩
      · by_cases hf : s.finishAnim = none
        · rw [frameAdvance_else_done s t hadv hgt hL0 hLg hf,
            frameAdvance_else_done { s with animNumLoops := s.animNumLoops, nextAnimNumLoops := b }
              t (by exact hadv) (by exact hgt) (by exact hL0) (by exact hLg) (by exact hf)]
          exact ⟨s.animNumLoops, b, Or.inl rfl, hb, rfl⟩
        · obtain ⟨φ, hφ⟩ := Option.ne_none_iff_exists'.mp hf
          rw [frameAdvance_else_finish s t φ hadv hgt hL0 hLg hφ,
            frameAdvance_else_finish
              { s with animNumLoops := s.animNumLoops, nextAnimNumLoops := b } t φ
              (by exact hadv) (by exact hgt) (by exact hL0) (by exact hLg) (by exact hφ)]
          exact ⟨1, b, Or.inl rfl, hb, rfl⟩
  · -- the played animation has loop count 0, its counterpart 1: both take
    -- the last-pass branch of the policy
    have hneg : ¬ s.animNumLoops < 0 := by omega
    have hng : ¬ (s.animNumLoops > 1 ∧ s.nextAnim = none) := by
      rintro ⟨h1, -⟩
      omega
    have hnegP : ¬ ({ s with animNumLoops := (1 : Int), nextAnimNumLoops := b } :
        SysState).animNumLoops < 0 := by
      show ¬ (1 : Int) < 0
      norm_num
    have hngP : ¬ (({ s with animNumLoops := (1 : Int), nextAnimNumLoops := b } :
        SysState).animNumLoops > 1 ∧
        ({ s with animNumLoops := (1 : Int), nextAnimNumLoops := b } : SysState).nextAnim = none) := by
      rintro ⟨h1, -⟩
      revert h1
      show ¬ (1 : Int) > 1
      norm_num
    by_cases hf : s.finishAnim = none
    · rw [frameAdvance_else_done s t hadv hgt hneg hng hf,
        frameAdvance_else_done { s with animNumLoops := (1 : Int), nextAnimNumLoops := b } t
          (by exact hadv) (by exact hgt) hnegP hngP (by exact hf)]
      exact ⟨1, b, Or.inr ⟨by exact ha0, rfl⟩, hb, rfl⟩
    · obtain ⟨φ, hφ⟩ := Option.ne_none_iff_exists'.mp hf
      rw [frameAdvance_else_finish s t φ hadv hgt hneg hng hφ,
        frameAdvance_else_finish { s with animNumLoops := (1 : Int), nextAnimNumLoops := b } t φ
          (by exact hadv) (by exact hgt) hnegP hngP (by exact hφ)]
      exact ⟨1, b, Or.inl rfl, hb, rfl⟩

theorem animBody_loops (s : SysState) (a b t : Int)
    (ha : LoopsOK s.animNumLoops a) (hb : LoopsOK s.nextAnimNumLoops b) :
    ∃ a2 b2 : Int,
      LoopsOK (animBody s t).1.animNumLoops a2 ∧
      LoopsOK (animBody s t).1.nextAnimNumLoops b2 ∧
      animBody { s with animNumLoops := a, nextAnimNumLoops := b } t =
        ({ (animBody s t).1 with animNumLoops := a2, nextAnimNumLoops := b2 },
         (animBody s t).2) := by
  obtain ⟨a1, ha1, hb1, hpe⟩ := startQueuedAnim_loops s a b t ha hb
  obtain ⟨s1, e1, hS⟩ : ∃ s1 e1, startQueuedAnim s t = (s1, e1) := ⟨_, _, rfl⟩
  rw [hS] at ha1 hb1 hpe
  by_cases h1 : s1.animInProgress = false
  · rw [animBody_stop s t s1 e1 hS h1,
      animBody_stop { s with animNumLoops := a, nextAnimNumLoops := b } t _ _ hpe (by exact h1)]
    exact ⟨a1, b, ha1, hb1, rfl⟩
  · have h1t : s1.animInProgress = true := by simpa using h1
    obtain ⟨fa, fb, hfa, hfb, hFA⟩ := frameAdvance_loops s1 a1 b t ha1 hb1
    obtain ⟨s2, e2, hA⟩ : ∃ s2 e2, frameAdvance s1 t = (s2, e2) := ⟨_, _, rfl⟩
    rw [hA] at hfa hfb hFA
    by_cases h2 : s2.animInProgress = false
    · rw [animBody_adv_stop s t s1 s2 e1 e2 hS h1t hA h2,
        animBody_adv_stop { s with animNumLoops := a, nextAnimNumLoops := b } t _ _ _ _
          hpe (by exact h1t) hFA (by exact h2)]
      exact ⟨fa, fb, hfa, hfb, rfl⟩
    · have h2t : s2.animInProgress = true := by simpa using h2
      rw [animBody_full s t s1 s2 e1 e2 hS h1t hA h2t,
        animBody_full { s with animNumLoops := a, nextAnimNumLoops := b } t _ _ _ _
          hpe (by exact h1t) hFA (by exact h2t)]
      refine ⟨fa, fb, hfa, hfb, ?_⟩
      rw [tweenServos_loops s2 fa fb t]

theorem loop_Animation_loops (s : SysState) (a b t : Int)
    (ha : LoopsOK s.animNumLoops a) (hb : LoopsOK s.nextAnimNumLoops b) :
    ∃ a2 b2 : Int,
      LoopsOK (loop_Animation s t).1.animNumLoops a2 ∧
      LoopsOK (loop_Animation s t).1.nextAnimNumLoops b2 ∧
      loop_Animation { s with animNumLoops := a, nextAnimNumLoops := b } t =
        ({ (loop_Animation s t).1 with animNumLoops := a2, nextAnimNumLoops := b2 },
         (loop_Animation s t).2) := by
  by_cases hskip : s.timeAtLastAnimUpdate + millisBetweenAnimUpdate > t
  · rw [loop_Animation_skip s t hskip,
      loop_Animation_skip { s with animNumLoops := a, nextAnimNumLoops := b } t (by exact hskip)]
    exact ⟨a, b, ha, hb, rfl⟩
  · rw [loop_Animation_go s t hskip,
      loop_Animation_go { s with animNumLoops := a, nextAnimNumLoops := b } t (by exact hskip)]
    obtain ⟨a2, b2, h1, h2, h3⟩ :=
      animBody_loops { s with timeAtLastAnimUpdate := t } a b t (by exact ha) (by exact hb)
    exact ⟨a2, b2, h1, h2, by exact h3⟩

theorem runTicks_loops (ts : List Int) : ∀ (s : SysState) (a b : Int),
    LoopsOK s.animNumLoops a → LoopsOK s.nextAnimNumLoops b →
    ∃ a2 b2 : Int,
      LoopsOK (runTicks s ts).1.animNumLoops a2 ∧
      LoopsOK (runTicks s ts).1.nextAnimNumLoops b2 ∧
      runTicks { s with animNumLoops := a, nextAnimNumLoops := b } ts =
        ({ (runTicks s ts).1 with animNumLoops := a2, nextAnimNumLoops := b2 },
         (runTicks s ts).2) ∧
      projTrace { s with animNumLoops := a, nextAnimNumLoops := b } ts = projTrace s ts := by
  induction ts with
  | nil =>
      intro s a b ha hb
      exact ⟨a, b, ha, hb, rfl, rfl⟩
  | cons t ts ih =>
      intro s a b ha hb
      obtain ⟨a1, b1, ha1, hb1, hstep⟩ := loop_Animation_loops s a b t ha hb
      obtain ⟨s1, e1, hL⟩ : ∃ s1 e1, loop_Animation s t = (s1, e1) := ⟨_, _, rfl⟩
      rw [hL] at ha1 hb1 hstep
      obtain ⟨a2, b2, ha2, hb2, hrun, hproj⟩ := ih s1 a1 b1 ha1 hb1
      refine ⟨a2, b2, ?_, ?_, ?_, ?_⟩
      · rw [runTicks_cons s t ts, hL]
        dsimp only
        exact ha2
      · rw [runTicks_cons s t ts, hL]
        dsimp only
        exact hb2
      · rw [runTicks_cons s t ts, hL, runTicks_cons _ t ts, hstep, hrun]
      · rw [projTrace_cons s t ts, hL, projTrace_cons _ t ts, hstep, hproj]

/-- C7: enqueueing an animation with loop count 0 (the value the FW/FB
handlers leave when the count parameter is absent) behaves exactly like
enqueueing it with loop count 1.  Part one: from any state, the two
enqueues produce identical event streams and identical playback traces on
every tick schedule.  Part two: with a finish animation present and the
queue empty throughout, the loop-count-0 enqueue plays one full pass,
then the finish animation once, then exactly one completion notification
at the final tick.  Part three: the same without a finish animation, the
single completion notification arriving at the end of the single pass. -/
theorem c7_zero_loops_like_one :
    (∀ (s : SysState) (α : AnimRef) (fin : Option AnimRef) (cs : Option (Char × Char))
        (ts : List Int),
      (runTicks (PlayAnimNumTimes s α fin 0 cs) ts).2 =
        (runTicks (PlayAnimNumTimes s α fin 1 cs) ts).2 ∧
      projTrace (PlayAnimNumTimes s α fin 0 cs) ts =
        projTrace (PlayAnimNumTimes s α fin 1 cs) ts) ∧
    (∀ (s : SysState) (α φ : AnimRef) (cs : Char × Char) (d t0 : Int) (F Fφ : Nat),
      millisBetweenAnimUpdate ≤ d →
      s.animInProgress = false →
      s.interruptInProgressAnim = false →
      s.timeAtLastAnimUpdate ≤ t0 →
      NumOfFrames (animData s.store α) = (F : Int) →
      NumOfFrames (animData s.store φ) = (Fφ : Int) →
      1 ≤ F → 1 ≤ Fφ →
      (∀ i : Nat, i ≤ F → 1 ≤ i →
        0 ≤ ((animData s.store α).getD i FrameD).tween ∧
          ((animData s.store α).getD i FrameD).tween < d) →
      (∀ i : Nat, i ≤ Fφ → 1 ≤ i →
        0 ≤ ((animData s.store φ).getD i FrameD).tween ∧
          ((animData s.store φ).getD i FrameD).tween < d) →
      notifEvents (runTicks (PlayAnimNumTimes s α (some φ) 0 (some cs))
          (schedule t0 d (F + Fφ + 1))).2 = [Ev.notifyDone cs] ∧
      notifEvents (runTicks (PlayAnimNumTimes s α (some φ) 0 (some cs))
          (schedule t0 d (F + Fφ))).2 = [] ∧
      projTrace (PlayAnimNumTimes s α (some φ) 0 (some cs)) (schedule t0 d (F + Fφ + 1)) =
        ((List.range F).map (fun i => (some α, i + 1, true)) ++ [(some φ, 1, true)]) ++
        ((List.range (Fφ - 1)).map (fun i => (some φ, i + 2, true)) ++
          [(some φ, Fφ + 1, false)])) ∧
    (∀ (s : SysState) (α : AnimRef) (cs : Char × Char) (d t0 : Int) (F : Nat),
      millisBetweenAnimUpdate ≤ d →
      s.animInProgress = false →
      s.interruptInProgressAnim = false →
      s.timeAtLastAnimUpdate ≤ t0 →
      NumOfFrames (animData s.store α) = (F : Int) →
      1 ≤ F →
      (∀ i : Nat, i ≤ F → 1 ≤ i →
        0 ≤ ((animData s.store α).getD i FrameD).tween ∧
          ((animData s.store α).getD i FrameD).tween < d) →
      notifEvents (runTicks (PlayAnimNumTimes s α none 0 (some cs))
          (schedule t0 d (F + 1))).2 = [Ev.notifyDone cs] ∧
      notifEvents (runTicks (PlayAnimNumTimes s α none 0 (some cs))
          (schedule t0 d F)).2 = [] ∧
      projTrace (PlayAnimNumTimes s α none 0 (some cs)) (schedule t0 d (F + 1)) =
        (List.range F).map (fun i => (some α, i + 1, true)) ++
          [(some α, F + 1, false)]) := by
  refine ⟨?_, ?_, ?_⟩
  · intro s α fin cs ts
    obtain ⟨a2, b2, ha2, hb2, hrun, hproj⟩ := runTicks_loops ts (PlayAnimNumTimes s α fin 0 cs)
      ((PlayAnimNumTimes s α fin 0 cs).animNumLoops) 1 (Or.inl rfl) (Or.inr ⟨rfl, rfl⟩)
    constructor
    · have h := congrArg Prod.snd hrun
      dsimp only at h
      exact h.symm
    · exact hproj.symm
  · intro s α φ cs d t0 F Fφ hd hplay hint ht hF hFp hF1 hFp1 hdur hdurp
    obtain ⟨F1, rfl⟩ : ∃ k, F = k + 1 := ⟨F - 1, by omega⟩
    obtain ⟨G, rfl⟩ : ∃ k, Fφ = k + 1 := ⟨Fφ - 1, by omega⟩
    obtain ⟨sB, evAB, hRun1, hokB, hnev1, hproj1⟩ :=
      passRun d α (some φ) 0 cs s.store F1 (PlayAnimNumTimes s α (some φ) 0 (some cs)) t0
        hd rfl rfl rfl rfl rfl (by exact hplay) (by exact hint)
        (by show s.timeAtLastAnimUpdate + millisBetweenAnimUpdate ≤ t0 + d; omega) hF
        (fun i h1 h2 => hdur i h2 h1)
    obtain ⟨sQ, evQ, hQ, hokQ, hnevQ⟩ :=
      endTick_finish d α φ 0 cs s.store (F1 + 1) sB (t0 + d + (F1 : Int) * d)
        hd hokB hF (by omega) (by omega) (hdur (F1 + 1) (by omega) (by omega)).2
    have hdurpInt : ∀ i : Nat, 1 ≤ i → (i : Int) ≤ NumOfFrames (animData s.store φ) →
        0 ≤ ((animData s.store φ).getD i FrameD).tween ∧
          ((animData s.store φ).getD i FrameD).tween < d := by
      intro i h1 h2
      rw [hFp] at h2
      exact hdurp i (by exact_mod_cast h2) h1
    obtain ⟨sG, evG, hG, hokG, hnevG, hprojG⟩ :=
      midrun d φ none 1 cs s.store hd G 1 sQ (t0 + d + (F1 : Int) * d + d)
        hokQ (by omega) (by rw [hFp]; push_cast; omega) hdurpInt
    rw [show 1 + G = G + 1 from by omega] at hokG
    obtain ⟨sH, evH, hH, hstH, hcurH, hipH, hnxH, hintH, htlH, htfH, hnevH⟩ :=
      endTick_done d φ 1 cs s.store (G + 1) sG
        (t0 + d + (F1 : Int) * d + d + (G : Int) * d)
        hd hokG hFp (by omega) (by omega) (hdurp (G + 1) (by omega) (by omega)).2
    have hseg : ∀ (tm : Int) (k b : Nat), schedule tm d ((k + 1) + b) =
        ((tm + d) :: schedule (tm + d) d k) ++ schedule (tm + d + (k : Int) * d) d b := by
      intro tm k b
      rw [schedule_append (k + 1) tm d b, schedule_cons]
      have harith : tm + ((k + 1 : Nat) : Int) * d = tm + d + (k : Int) * d := by
        push_cast
        ring
      rw [harith]
    have hone : ∀ (tm : Int) (b : Nat), schedule tm d (1 + b) =
        (tm + d) :: schedule (tm + d) d b := by
      intro tm b
      rw [Nat.add_comm 1 b, schedule_cons]
    have hprojG2 : projTrace sQ
        (schedule (t0 + d + (F1 : Int) * d + d) d G) =
        (List.range G).map (fun i => (some φ, i + 2, true)) := by
      rw [hprojG]
      apply List.map_congr_left
      intro i hi
      have hnum : 1 + i + 1 = i + 2 := by omega
      rw [hnum]
    refine ⟨?_, ?_, ?_⟩
    · have hN : (F1 + 1) + (G + 1) + 1 = (F1 + 1) + (1 + (G + 1)) := by ring
      rw [hN, hseg, hone, schedule_append G, schedule_one]
      rw [runTicks_append, hRun1]
      dsimp only
      rw [runTicks_cons, hQ]
      dsimp only
      rw [runTicks_append, hG]
      dsimp only
      rw [runTicks_one, hH]
      simp only [notifEvents_append, hnev1, hnevQ, hnevG, hnevH,
        List.nil_append, List.append_nil]
    · have hN : (F1 + 1) + (G + 1) = (F1 + 1) + (1 + G) := by ring
      rw [hN, hseg, hone]
      rw [runTicks_append, hRun1]
      dsimp only
      rw [runTicks_cons, hQ]
      dsimp only
      rw [hG]
      simp only [notifEvents_append, hnev1, hnevQ, hnevG,
        List.nil_append, List.append_nil]
    · have hN : (F1 + 1) + (G + 1) + 1 = (F1 + 1) + (1 + (G + 1)) := by ring
      rw [hN, hseg, hone, schedule_append G, schedule_one]
      rw [projTrace_append, hRun1]
      dsimp only
      rw [hproj1, projTrace_cons, hQ]
      dsimp only
      obtain ⟨hstQ, hcurQ, hfinQ, htfQ, hLQ, hcsQ, hipQ, hnxQ, hintQ, htsQ, htlQ⟩ := hokQ
      rw [hcurQ, htfQ, hipQ]
      rw [projTrace_append, hG]
      dsimp only
      rw [hprojG2, projTrace_cons, hH]
      dsimp only
      rw [hcurH, htfH, hipH]
      simp only [projTrace, List.append_assoc, List.cons_append, List.nil_append,
        Nat.add_sub_cancel]
  · intro s α cs d t0 F hd hplay hint ht hF hF1 hdur
    obtain ⟨F1, rfl⟩ : ∃ k, F = k + 1 := ⟨F - 1, by omega⟩
    obtain ⟨sB, evAB, hRun1, hokB, hnev1, hproj1⟩ :=
      passRun d α none 0 cs s.store F1 (PlayAnimNumTimes s α none 0 (some cs)) t0
        hd rfl rfl rfl rfl rfl (by exact hplay) (by exact hint)
        (by show s.timeAtLastAnimUpdate + millisBetweenAnimUpdate ≤ t0 + d; omega) hF
        (fun i h1 h2 => hdur i h2 h1)
    obtain ⟨sH, evH, hH, hstH, hcurH, hipH, hnxH, hintH, htlH, htfH, hnevH⟩ :=
      endTick_done d α 0 cs s.store (F1 + 1) sB (t0 + d + (F1 : Int) * d)
        hd hokB hF (by omega) (by omega) (hdur (F1 + 1) (by omega) (by omega)).2
    have hseg : ∀ (tm : Int) (k b : Nat), schedule tm d ((k + 1) + b) =
        ((tm + d) :: schedule (tm + d) d k) ++ schedule (tm + d + (k : Int) * d) d b := by
      intro tm k b
      rw [schedule_append (k + 1) tm d b, schedule_cons]
      have harith : tm + ((k + 1 : Nat) : Int) * d = tm + d + (k : Int) * d := by
        push_cast
        ring
      rw [harith]
    refine ⟨?_, ?_, ?_⟩
    · rw [hseg, schedule_one]
      rw [runTicks_append, hRun1]
      dsimp only
      rw [runTicks_one, hH]
      simp only [notifEvents_append, hnev1, hnevH, List.nil_append, List.append_nil]
    · rw [schedule_cons, hRun1]
      exact hnev1
    · rw [hseg, schedule_one]
      rw [projTrace_append, hRun1]
      dsimp only
      rw [hproj1, projTrace_cons, hH]
      dsimp only
      rw [hcurH, htfH, hipH]
      simp only [projTrace, List.append_assoc, List.cons_append, List.nil_append]

/-- Witness for C7 at concrete inputs: walkEnd enqueued with loop count 0
behaves like loop count 1 on the two-tick schedule [21, 322]; with
standStraight as finish animation the loop-count-0 enqueue completes with
one notification after one pass plus the finish pass; without a finish
animation it completes after the single pass. -/
theorem c7_witness :
    ((runTicks (PlayAnimNumTimes setup_Animation AnimRef.walkEnd none 0
        (some ('C', '7'))) [21, 322]).2 =
      (runTicks (PlayAnimNumTimes setup_Animation AnimRef.walkEnd none 1
        (some ('C', '7'))) [21, 322]).2) ∧
    (notifEvents (runTicks (PlayAnimNumTimes setup_Animation AnimRef.walkEnd
        (some AnimRef.standStraight) 0 (some ('C', '7')))
        (schedule 0 301 (2 + 1 + 1))).2 = [Ev.notifyDone ('C', '7')]) ∧
    (notifEvents (runTicks (PlayAnimNumTimes setup_Animation AnimRef.walkEnd none 0
        (some ('C', '7'))) (schedule 0 301 (2 + 1))).2 = [Ev.notifyDone ('C', '7')]) :=
  ⟨(c7_zero_loops_like_one.1 setup_Animation AnimRef.walkEnd none (some ('C', '7'))
      [21, 322]).1,
   (c7_zero_loops_like_one.2.1 setup_Animation AnimRef.walkEnd AnimRef.standStraight
      ('C', '7') 301 0 2 1 (by decide) rfl rfl (by decide) (by decide) (by decide)
      (by decide) (by decide) (by decide) (by decide)).1,
   (c7_zero_loops_like_one.2.2 setup_Animation AnimRef.walkEnd ('C', '7') 301 0 2
      (by decide) rfl rfl (by decide) (by decide) (by decide) (by decide)).1⟩

/-! ## Claim C2: parameter round-trip -/

theorem fmtSV_eq_svTok (n : Int) : fmtSV n = (svTok n).chars := by
  by_cases hn : n < 0
  · have hb : decide (n < 0) = true := decide_eq_true hn
    simp [fmtSV, svTok, CmdTok.chars, ParamTok.chars, intChars, hn, hb]
  · have hb : decide (n < 0) = false := decide_eq_false hn
    simp [fmtSV, svTok, CmdTok.chars, ParamTok.chars, intChars, hn, hb]

theorem svTok_wf (n : Int) (h1 : -99999 ≤ n) (h2 : n ≤ 999999) : (svTok n).wf := by
  refine ⟨by show 'A' ≤ 'S' ∧ 'S' ≤ 'Z'; decide,
    by show 'A' ≤ 'V' ∧ 'V' ≤ 'Z'; decide, by simp [svTok], ?_⟩
  intro p hp
  simp only [svTok, List.mem_cons, List.mem_singleton, List.not_mem_nil, or_false] at hp
  have h0 : (⟨false, ['0']⟩ : ParamTok).wf := ⟨by decide, by decide, by decide⟩
  rcases hp with rfl | rfl | rfl | rfl | rfl
  · exact h0
  · refine ⟨natDigits_digits n.natAbs, natDigits_length_pos n.natAbs, ?_⟩
    by_cases hn : n < 0
    · have hb : decide (n < 0) = true := decide_eq_true hn
      have hlt : n.natAbs < 10 ^ 5 := by
        have : n.natAbs ≤ 99999 := by omega
        omega
      have := natDigits_length 5 n.natAbs hlt (by omega)
      simp [hb, MAX_PARAM_LENGTH]
      omega
    · have hb : decide (n < 0) = false := decide_eq_false hn
      have hlt : n.natAbs < 10 ^ 6 := by
        have : n.natAbs ≤ 999999 := by omega
        omega
      have := natDigits_length 6 n.natAbs hlt (by omega)
      simp [hb, MAX_PARAM_LENGTH]
      omega
  · exact h0
  · exact h0
  · exact h0

theorem svTok_dispatch (n : Int) : (svTok n).dispatch = ⟨'S', 'V', 0, n, 0, 0, 0⟩ := by
  have h0 : ParamTok.val ⟨false, ['0']⟩ = 0 := by decide
  have hv : ParamTok.val ⟨decide (n < 0), natDigits n.natAbs⟩ = n := by
    by_cases hn : n < 0
    · have hb : decide (n < 0) = true := decide_eq_true hn
      rw [ParamTok.val]
      rw [hb, if_pos rfl, digitsVal_natDigits]
      omega
    · have hb : decide (n < 0) = false := decide_eq_false hn
      rw [ParamTok.val]
      rw [hb, if_neg (by simp), digitsVal_natDigits]
      omega
  simp [svTok, CmdTok.dispatch, h0, hv]

/-- C2, counterexample: at n = -100000 (six digits plus a minus sign) the
parser aborts on the seventh parameter character, because the minus sign
counts toward MAX_PARAM_LENGTH, and dispatches nothing. -/
theorem c2_counterexample :
    (prun pInit (fmtSV (-100000))).2 = [] ∧
      (prun pInit (fmtSV (-100000))).2 ≠
        [(⟨'S', 'V', 0, -100000, 0, 0, 0⟩ : Dispatch)] := by
  decide

/-- C2 (amended): for every integer n with -99999 ≤ n ≤ 999999, feeding
the parser the ASCII bytes of `<SV,0,n,0,0,0>` results in exactly one
dispatched SV command whose second parameter equals n, including its
sign.  (The sign character counts toward the 6-character parameter
budget, so negative values carry at most 5 digits.) -/
theorem c2_amended_roundtrip (n : Int) (h1 : -99999 ≤ n) (h2 : n ≤ 999999) :
    (prun pInit (fmtSV n)).2 = [⟨'S', 'V', 0, n, 0, 0, 0⟩] := by
  rw [fmtSV_eq_svTok]
  obtain ⟨s2, hs2, -⟩ := prun_cmd pInit (svTok n) rfl (svTok_wf n h1 h2)
  rw [hs2]
  dsimp only
  rw [svTok_dispatch]

theorem c2_witness :
    (-99999 : Int) ≤ -99999 ∧ (-99999 : Int) ≤ 999999 ∧
      (prun pInit (fmtSV (-99999))).2 = [⟨'S', 'V', 0, -99999, 0, 0, 0⟩] :=
  ⟨by decide, by decide, c2_amended_roundtrip (-99999) (by decide) (by decide)⟩

/-! ## Claim C1: resynchronization -/

theorem prun_resync (L : List (List Char × CmdTok)) :
    ∀ s : PState, s.mode = .waiting →
    (∀ nc ∈ L, '<' ∉ nc.1) →
    (∀ nc ∈ L, nc.2.wf) →
    ∃ s2 : PState,
      prun s ((L.map (fun nc => nc.1 ++ nc.2.chars)).flatten) =
        (s2, L.map (fun nc => nc.2.dispatch)) ∧ s2.mode = .waiting := by
  induction L with
  | nil =>
      intro s hm _ _
      exact ⟨s, rfl, hm⟩
  | cons nc L ih =>
      intro s hm hnz hwf
      simp only [List.map_cons, List.flatten_cons]
      rw [List.append_assoc]
      rw [prun_append s nc.1 (nc.2.chars ++ (L.map (fun x => x.1 ++ x.2.chars)).flatten)]
      rw [prun_noise s nc.1 hm (hnz nc (List.mem_cons_self nc L))]
      dsimp only
      rw [prun_append s nc.2.chars ((L.map (fun x => x.1 ++ x.2.chars)).flatten)]
      obtain ⟨s1, hs1, hs1m⟩ := prun_cmd s nc.2 hm (hwf nc (List.mem_cons_self nc L))
      rw [hs1]
      dsimp only
      obtain ⟨s2, hs2, hs2m⟩ := ih s1 hs1m
        (fun x hx => hnz x (List.mem_cons_of_mem nc hx))
        (fun x hx => hwf x (List.mem_cons_of_mem nc hx))
      rw [hs2]
      exact ⟨s2, by simp, hs2m⟩

/-- C1, counterexample: on the input `<<FW>` the parser dispatches
nothing (the second `<` aborts the command in progress and is itself
consumed, and the parser does not re-synchronize on it), whereas that
input's well-formed subsequence with noise removed is `<FW>`, which
dispatches the FW command. -/
theorem c1_counterexample :
    extractWf [ '<', '<', 'F', 'W', '>'] = [ '<', 'F', 'W', '>'] ∧
      (prun pInit [ '<', '<', 'F', 'W', '>']).2 = [] ∧
      (prun pInit (extractWf [ '<', '<', 'F', 'W', '>'])).2 =
        [(⟨'F', 'W', 0, 0, 0, 0, 0⟩ : Dispatch)] ∧
      (prun pInit [ '<', '<', 'F', 'W', '>']).2 ≠
        (prun pInit (extractWf [ '<', '<', 'F', 'W', '>'])).2 := by
  decide

/-- C1 (amended): resynchronization holds on inputs whose noise contains
no `<`: feeding a sequence of noise segments and well-formed commands
(code grammar: two uppercase code letters, up to five parameters, a
parameter being an optional minus sign and then digits with sign plus
digits at most 6 characters), followed by trailing `<`-free noise, one
byte at a time dispatches exactly the commands, in order, with their
parameter values. -/
theorem c1_amended_resync (L : List (List Char × CmdTok)) (nz : List Char)
    (hnz : ∀ nc ∈ L, '<' ∉ nc.1) (hnzt : '<' ∉ nz)
    (hwf : ∀ nc ∈ L, nc.2.wf) :
    (prun pInit ((L.map (fun nc => nc.1 ++ nc.2.chars)).flatten ++ nz)).2 =
      L.map (fun nc => nc.2.dispatch) := by
  rw [prun_append]
  obtain ⟨s2, hs2, hs2m⟩ := prun_resync L pInit rfl hnz hwf
  rw [hs2]
  dsimp only
  rw [prun_noise s2 nz hs2m hnzt]
  simp

theorem c1_witness :
    (prun pInit
      [ 'g', 'a', 'r', 'b', 'a', 'g', 'e', '<', 'F', 'W', ',', '3', '>',
        'j', 'u', 'n', 'k', '<', 'S', 'T', '>']).2 =
      [(⟨'F', 'W', 3, 0, 0, 0, 0⟩ : Dispatch), ⟨'S', 'T', 0, 0, 0, 0, 0⟩] := by
  have hwfFW : (⟨'F', 'W', [⟨false, ['3']⟩]⟩ : CmdTok).wf := by
    refine ⟨by decide, by decide, by decide, ?_⟩
    intro p hp
    simp only [List.mem_singleton] at hp
    subst hp
    exact ⟨by decide, by decide, by decide⟩
  have hwfST : (⟨'S', 'T', []⟩ : CmdTok).wf := by
    refine ⟨by decide, by decide, by decide, ?_⟩
    intro p hp
    simp at hp
  have h := c1_amended_resync
    [([ 'g', 'a', 'r', 'b', 'a', 'g', 'e'], ⟨'F', 'W', [⟨false, ['3']⟩]⟩),
     ([ 'j', 'u', 'n', 'k'], ⟨'S', 'T', []⟩)] []
    (by decide) (by decide)
    (by
      intro nc hnc
      simp only [List.mem_cons, List.not_mem_nil, or_false] at hnc
      rcases hnc with rfl | rfl
      · exact hwfFW
      · exact hwfST)
  exact h.trans (by decide)

end MobBob
